import Mathlib

/-! The persistence and aggregation engine of traktor-charts (src/db.go).

A shallow embedding of db.go.  The program talks to SQLite through SQL text, so
the embedding gives each statement of db.go the meaning SQLite gives it on the
schema of createTableStatement:

* a table is the list of its rows in insertion order;
* a column declared STRING has NUMERIC affinity in SQLite (the declared type
  contains none of INT, CHAR, CLOB, TEXT, BLOB, REAL, FLOA, DOUB), so a text
  value that is a number literal is stored as an INTEGER or a REAL, and every
  other text is stored as it is;
* INTEGER PRIMARY KEY is the rowid: a row inserted without an id gets 1 in an
  empty table and the largest rowid plus one otherwise;
* UNIQUE on audio_id rejects an insert whose stored audio_id equals, as SQL
  values, one that is already there.

A call either returns or panics; what the program prints is not modelled.

Two parts of SQLite and of the Go driver are taken as a parameter (Engine):
the floating-point conversions between texts and REAL values, and the answer
to a count query on a text that is neither a table of the schema nor a plain
word.  Every theorem that takes an engine holds for every engine.
-/

namespace TraktorCharts

/-! ## Stored values -/

/-- A REAL value: the number a finite double denotes, or an infinity. -/
inductive Double where
  | finite (q : ℚ)
  | posInf
  | negInf
  deriving DecidableEq

/-- A value held in a column declared STRING: an INTEGER, a REAL or a TEXT. -/
inductive SqlVal where
  | int (n : Int)
  | real (r : Double)
  | text (s : String)
  deriving DecidableEq

/-- A number NUMERIC affinity makes of a text: an INTEGER or a REAL. -/
inductive Numeric where
  | int (n : Int)
  | real (r : Double)
  deriving DecidableEq

/-- The stored value of a number. -/
def Numeric.toSqlVal : Numeric → SqlVal
  | .int n => .int n
  | .real r => .real r

/-- Bytewise comparison of two texts, as memcmp of their UTF-8 encodings does:
lexicographic over the code points. -/
def lexLe : List Char → List Char → Bool
  | [], _ => true
  | _ :: _, [] => false
  | a :: as, b :: bs =>
    if a.toNat < b.toNat then true
    else if b.toNat < a.toNat then false
    else lexLe as bs

/-- Comparison of Go strings, `a <= b`: bytewise lexicographic; it is also the
BINARY collation SQLite compares TEXT values with. -/
def stringLe (a b : String) : Bool := lexLe a.data b.data

/-- Numeric comparison of two REAL values. -/
def Double.le : Double → Double → Bool
  | .negInf, _ => true
  | .finite _, .negInf => false
  | .finite a, .finite b => decide (a ≤ b)
  | .finite _, .posInf => true
  | .posInf, .posInf => true
  | .posInf, .finite _ => false
  | .posInf, .negInf => false

/-- The order SQLite sorts stored values in (ORDER BY ... ASC): an INTEGER or
REAL comes before every TEXT, INTEGERs and REALs compare numerically, TEXTs
bytewise. -/
def SqlVal.le : SqlVal → SqlVal → Bool
  | .int a, .int b => decide (a ≤ b)
  | .int a, .real r => Double.le (.finite (a : ℚ)) r
  | .real r, .int b => Double.le r (.finite (b : ℚ))
  | .real r, .real s => Double.le r s
  | .int _, .text _ => true
  | .real _, .text _ => true
  | .text _, .int _ => false
  | .text _, .real _ => false
  | .text a, .text b => stringLe a b

/-- The comparison `=` of SQL on stored values, as the UNIQUE index and the
WHERE clause use it: numbers are equal when they denote the same number, texts
when they are the same text, and a number never equals a text. -/
def SqlVal.eq : SqlVal → SqlVal → Bool
  | .int a, .int b => decide (a = b)
  | .int a, .real r => decide (Double.finite (a : ℚ) = r)
  | .real r, .int b => decide (r = Double.finite (b : ℚ))
  | .real r, .real s => decide (r = s)
  | .text a, .text b => decide (a = b)
  | .int _, .text _ => false
  | .real _, .text _ => false
  | .text _, .int _ => false
  | .text _, .real _ => false

/-- The characters sqlite3Isspace accepts. -/
def isSqlSpace (c : Char) : Bool :=
  c = ' ' || c = '\t' || c = '\n' || c = '\r' || c.toNat = 11 || c.toNat = 12

/-- A decimal digit. -/
def isDigit (c : Char) : Bool := decide (48 ≤ c.toNat ∧ c.toNat ≤ 57)

/-- The characters a number literal is made of: digits, signs, the dot, the
exponent letter and blanks. -/
def isNumberChar (c : Char) : Bool :=
  isDigit c || c = '+' || c = '-' || c = '.' || c = 'e' || c = 'E' || isSqlSpace c

/-- A text that may be a number literal: it has a digit and no character
outside those of number literals.  SQLite converts no other text. -/
def looksNumeric (s : String) : Bool :=
  s.data.all isNumberChar && s.data.any isDigit

/-- The value of a run of decimal digits read after the digits worth acc,
none when a character is not a digit. -/
def digitsValue (acc : Nat) : List Char → Option Nat
  | [] => some acc
  | c :: cs =>
    if 48 ≤ c.toNat ∧ c.toNat ≤ 57 then digitsValue (10 * acc + (c.toNat - 48)) cs
    else none

/-- An unsigned run of at least one decimal digit. -/
def unsignedLiteral (cs : List Char) : Option Nat :=
  match cs with
  | [] => none
  | _ :: _ => digitsValue 0 cs

/-- The integer of a plain integer literal: an optional minus sign and
decimal digits, nothing else. -/
def plainInteger (s : String) : Option Int :=
  match s.data with
  | '-' :: ds => (unsignedLiteral ds).map (fun n => - (n : Int))
  | ds => (unsignedLiteral ds).map (fun n => (n : Int))

/-- The integer a text denotes when it is a plain integer literal whose
absolute value is below 2^63: SQLite stores exactly this INTEGER. -/
def integerLiteral (s : String) : Option Int :=
  match plainInteger s with
  | some n => if - (2 : Int) ^ 63 < n ∧ n < (2 : Int) ^ 63 then some n else none
  | none => none

/-! ## The schema of createTableStatement -/

/-- A row of table tracks. -/
structure TrackRow where
  id : Int
  bpm : Int
  key : SqlVal
  name : SqlVal
  genre : SqlVal
  artist : SqlVal
  length : Int
  audio_id : SqlVal
  deriving DecidableEq

/-- A row of table plays. -/
structure PlayRow where
  id : Int
  track_id : Int
  year : Int
  month : Int
  day : Int
  hour : Int
  minute : Int
  deriving DecidableEq

/-- The store behind a `*sql.DB` handle on which createTableStatement has
run: the rows of the two tables, oldest first. -/
structure Store where
  tracks : List TrackRow
  plays : List PlayRow
  deriving DecidableEq

/-- The store right after initializeDB: both tables empty. -/
def emptyStore : Store := { tracks := [], plays := [] }

/-- The largest rowid in use, none for an empty table. -/
def maxRowid : List Int → Option Int
  | [] => none
  | x :: xs =>
    match maxRowid xs with
    | none => some x
    | some m => some (max x m)

/-- The rowid SQLite gives a row inserted without one: 1 in an empty table,
otherwise one more than the largest rowid in use (rowids stay below the
largest 64-bit integer, where SQLite would look for a free one instead). -/
def nextRowid (ids : List Int) : Int :=
  match maxRowid ids with
  | none => 1
  | some m => m + 1

/-! ## Records of the ingestion front end -/

/-- Modelled from the spec: the type TraktorXMLEntry and its methods Genre,
Bpm, Key and Length are declared outside db.go; section 6 of the spec gives
the track descriptor as artist, title, genre, bpm (int), key (string), length
(int, seconds) and audio fingerprint (string). -/
structure TraktorXMLEntry where
  Artist : String
  Title : String
  Genre : String
  Bpm : Int
  Key : String
  Length : Int
  AudioId : String
  deriving DecidableEq

/-- Modelled from the spec: the type TraktorXMLEntryCollection is declared
outside db.go; insertPlay reads its Year, Month, Day, Hour and Minute, which
section 6 of the spec gives as integers. -/
structure TraktorXMLEntryCollection where
  Year : Int
  Month : Int
  Day : Int
  Hour : Int
  Minute : Int
  deriving DecidableEq

/-! ## Results of the database driver -/

/-- What `db.Query` hands back: an error with a nil cursor, or a cursor over
the result rows. -/
inductive QueryResult (α : Type) where
  | failed (err : String)
  | rows (rs : List α)

/-- How a call ends: it returns a value, or it panics (a nil pointer
dereference that nothing recovers). -/
inductive Outcome (α : Type) where
  | returned (v : α)
  | panicked
  deriving DecidableEq

/-! ## The parameter -/

/-- The parts of SQLite and of the Go driver the embedding takes as a
parameter.

* realAffinity: what NUMERIC affinity makes of a text that looks numeric and
  is not a plain integer literal below 2^63 (a literal with blanks, a plus
  sign, a fraction or an exponent, or a larger integer): the INTEGER or REAL
  stored, or none when SQLite keeps the text.  The value goes through
  floating point.
* formatFloat: the text rows.Scan writes into a Go string for a REAL
  (strconv.FormatFloat).
* countOther: the cursor or error of `SELECT COUNT(*) FROM` followed by a
  text that is neither a table of the schema nor a plain word. -/
structure Engine where
  realAffinity : String → Option Numeric
  formatFloat : Double → String
  countOther : Store → String → QueryResult Int

/-- NUMERIC affinity, applied to a text bound to a STRING column.  A text
that does not look numeric stays TEXT; a plain integer literal below 2^63
becomes that INTEGER; for the other texts that look numeric the engine says
which INTEGER or REAL is stored, or that the text stays TEXT. -/
def numericAffinity (eng : Engine) (s : String) : SqlVal :=
  if looksNumeric s then
    match integerLiteral s with
    | some n => .int n
    | none =>
      match eng.realAffinity s with
      | some v => v.toSqlVal
      | none => .text s
  else .text s

/-- What rows.Scan writes into a Go string for a stored value: an INTEGER in
decimal (strconv.FormatInt), a REAL as the engine formats it, a TEXT
unchanged. -/
def SqlVal.scanString (eng : Engine) : SqlVal → String
  | .int n => toString n
  | .real r => eng.formatFloat r
  | .text s => s

/-! ## Inserting -/

/-- The row insertTrackStatment stores for an entry under rowid id: the
STRING columns go through NUMERIC affinity. -/
def trackRowOf (eng : Engine) (id : Int) (e : TraktorXMLEntry) : TrackRow :=
  { id := id
    bpm := e.Bpm
    key := numericAffinity eng e.Key
    name := numericAffinity eng e.Title
    genre := numericAffinity eng e.Genre
    artist := numericAffinity eng e.Artist
    length := e.Length
    audio_id := numericAffinity eng e.AudioId }

/-- The statement of insertTrackStatment executed with the fields of e: fails
on the UNIQUE constraint when a track row already stores an audio_id equal to
the new one, and appends a row under a fresh rowid otherwise; the schema has
no other constraint that could reject the row. -/
def insertTrackStatment (eng : Engine) (db : Store) (e : TraktorXMLEntry) :
    Except String Store :=
  if db.tracks.any (fun t => SqlVal.eq t.audio_id (numericAffinity eng e.AudioId)) then
    .error "UNIQUE constraint failed: tracks.audio_id"
  else
    .ok { db with
          tracks := db.tracks ++ [trackRowOf eng (nextRowid (db.tracks.map (·.id))) e] }

/-- The statement of insertPlayStatment executed with a track id and the
time of ec: appends a play row under a fresh rowid; no constraint can reject
it. -/
def insertPlayStatment (db : Store) (id : Int) (ec : TraktorXMLEntryCollection) : Store :=
  { db with
    plays := db.plays ++
      [{ id := nextRowid (db.plays.map (·.id))
         track_id := id
         year := ec.Year
         month := ec.Month
         day := ec.Day
         hour := ec.Hour
         minute := ec.Minute }] }

/-- The cursor of `SELECT id from tracks where audio_id = ?`: the column
affinity is applied to the bound text before the comparison.  On a store whose
table tracks exists the query does not fail. -/
def selectIdByAudioId (eng : Engine) (db : Store) (id : String) : QueryResult Int :=
  .rows ((db.tracks.filter
    (fun t => SqlVal.eq t.audio_id (numericAffinity eng id))).map (·.id))

/-- The body of findTrackByAudioId after `db.Query`: with an error the message
is printed, the cursor is nil and `rows.Next()` dereferences it; otherwise the
id in the first row, or -1 when there is no row. -/
def findTrackByAudioIdOf : QueryResult Int → Outcome Int
  | .failed _ => .panicked
  | .rows [] => .returned (-1)
  | .rows (trackId :: _) => .returned trackId

/-- The function findTrackByAudioId of db.go. -/
def findTrackByAudioId (eng : Engine) (db : Store) (id : String) : Outcome Int :=
  findTrackByAudioIdOf (selectIdByAudioId eng db id)

/-- The function insertPlay of db.go. -/
def insertPlay (db : Store) (ec : TraktorXMLEntryCollection) (_e : TraktorXMLEntry)
    (id : Int) : Store :=
  insertPlayStatment db id ec

/-- The function insertEntry of db.go: try the insert (an error is only
printed, or swallowed when it is the UNIQUE one), look the id up, record the
play. -/
def insertEntry (eng : Engine) (db : Store) (ec : TraktorXMLEntryCollection)
    (e : TraktorXMLEntry) : Outcome Store :=
  let db1 := match insertTrackStatment eng db e with
    | .error _ => db
    | .ok d => d
  match findTrackByAudioId eng db1 e.AudioId with
  | .panicked => .panicked
  | .returned trackId => .returned (insertPlay db1 ec e trackId)

/-- A finite sequence of insertEntry calls, one per record, in order. -/
def insertEntries (eng : Engine) (db : Store) :
    List (TraktorXMLEntryCollection × TraktorXMLEntry) → Outcome Store
  | [] => .returned db
  | r :: rs =>
    match insertEntry eng db r.1 r.2 with
    | .panicked => .panicked
    | .returned db1 => insertEntries eng db1 rs

/-! ## Chart queries -/

/-- The struct ChartEntry of db.go. -/
structure ChartEntry where
  Bpm : Int
  Count : Int
  Key : String
  Title : String
  Genre : String
  Length : Int
  Artist : String
  deriving DecidableEq

/-- The two chart statements differ in the month test of the WHERE clause and
in the LIMIT; this record holds what the statement text is built from. -/
structure ChartStatement where
  month : Option Int
  year : Int
  limit : Nat
  deriving DecidableEq

/-- The function playsByMonthAndYearStatement of db.go. -/
def playsByMonthAndYearStatement (month : Int) (year : Int) : ChartStatement :=
  { month := some month, year := year, limit := 10 }

/-- The function playsByYearStatement of db.go. -/
def playsByYearStatement (year : Int) : ChartStatement :=
  { month := none, year := year, limit := 15 }

/-- The tests of the WHERE clause on the columns of plays. -/
def ChartStatement.inWindow (q : ChartStatement) (p : PlayRow) : Bool :=
  match q.month with
  | some m => decide (p.month = m) && decide (p.year = q.year)
  | none => decide (p.year = q.year)

/-- The rows of `FROM plays,tracks WHERE ... AND plays.track_id = tracks.id`:
every pair of a play in the window and a track with the id the play names. -/
def joinedRows (db : Store) (q : ChartStatement) : List (PlayRow × TrackRow) :=
  (db.plays.filter q.inWindow).flatMap
    (fun p => (db.tracks.filter (fun t => decide (p.track_id = t.id))).map (fun t => (p, t)))

/-- One group of `GROUP BY plays.track_id`: the key, the track whose columns
the SELECT reads, and `count(plays.track_id)`.  The bare columns are read from
the first row of the group; SQLite may read any row of it, and under the
primary key every row of a group holds the same track. -/
structure ChartGroup where
  track_id : Int
  track : TrackRow
  total : Nat
  deriving DecidableEq

/-- The group of key k among joined rows, none when no row has this key. -/
def groupOf (rows : List (PlayRow × TrackRow)) (k : Int) : Option ChartGroup :=
  match rows.filter (fun r => decide (r.1.track_id = k)) with
  | [] => none
  | r :: rs => some { track_id := k, track := r.2, total := (r :: rs).length }

/-- The keys of `GROUP BY plays.track_id`: the distinct track ids of the
joined rows, in ascending order. -/
def groupKeys (rows : List (PlayRow × TrackRow)) : List Int :=
  ((rows.map (fun r => r.1.track_id)).dedup).insertionSort (fun a b => a ≤ b)

/-- The groups of `GROUP BY plays.track_id`, one per key, by ascending key. -/
def groupRows (rows : List (PlayRow × TrackRow)) : List ChartGroup :=
  (groupKeys rows).filterMap (groupOf rows)

/-- The order of `ORDER by total DESC, tracks.artist ASC`: g1 may stand before
g2. -/
def rankLe (g1 g2 : ChartGroup) : Bool :=
  decide (g2.total < g1.total) ||
    (decide (g1.total = g2.total) && SqlVal.le g1.track.artist g2.track.artist)

/-- All groups of a chart statement in ORDER BY order, before the LIMIT: a
stable sort of the groups, so groups that tie on total and artist stay in
ascending order of track id. -/
def ranking (db : Store) (q : ChartStatement) : List ChartGroup :=
  (groupRows (joinedRows db q)).insertionSort (fun g1 g2 => rankLe g1 g2 = true)

/-- The cursor of a chart statement: the ranking cut at the LIMIT.  On a
store whose tables exist the query does not fail. -/
def Store.chartQuery (db : Store) (q : ChartStatement) : QueryResult ChartGroup :=
  .rows ((ranking db q).take q.limit)

/-- The function chartEntryForRows of db.go: Scan of the seven selected
columns of the current row. -/
def chartEntryForRows (eng : Engine) (g : ChartGroup) : ChartEntry :=
  { Artist := g.track.artist.scanString eng
    Title := g.track.name.scanString eng
    Bpm := g.track.bpm
    Key := g.track.key.scanString eng
    Genre := g.track.genre.scanString eng
    Length := g.track.length
    Count := (g.total : Int) }

/-- The body of chartEntryFindBySql after `db.Query`: an error is printed and
the nil slice returned; otherwise one entry per row. -/
def chartEntryFindBySqlOf (eng : Engine) : QueryResult ChartGroup → List ChartEntry
  | .failed _ => []
  | .rows rs => rs.map (chartEntryForRows eng)

/-- The function chartEntryFindBySql of db.go. -/
def chartEntryFindBySql (eng : Engine) (db : Store) (query : ChartStatement) :
    List ChartEntry :=
  chartEntryFindBySqlOf eng (db.chartQuery query)

/-- The function findChartEntriesByYear of db.go. -/
def findChartEntriesByYear (eng : Engine) (db : Store) (year : Int) : List ChartEntry :=
  chartEntryFindBySql eng db (playsByYearStatement year)

/-- The function findChartEntriesByMonthAndYear of db.go. -/
def findChartEntriesByMonthAndYear (eng : Engine) (db : Store) (month : Int) (year : Int) :
    List ChartEntry :=
  chartEntryFindBySql eng db (playsByMonthAndYearStatement month year)

/-! ## Counting -/

/-- An ASCII capital letter in lower case, any other character unchanged. -/
def asciiLower (c : Char) : Char :=
  if 65 ≤ c.toNat ∧ c.toNat ≤ 90 then Char.ofNat (c.toNat + 32) else c

/-- Equality of names as SQLite resolves them: without regard to the case of
ASCII letters. -/
def sameName (a b : String) : Bool :=
  decide (a.data.map asciiLower = b.data.map asciiLower)

/-- A plain word: one or more ASCII letters and nothing else. -/
def isWord (s : String) : Bool :=
  !s.data.isEmpty &&
    s.data.all (fun c => decide ((65 ≤ c.toNat ∧ c.toNat ≤ 90) ∨ (97 ≤ c.toNat ∧ c.toNat ≤ 122)))

/-- The cursor of `SELECT COUNT(*) FROM tableName`: one row with the number
of rows when the text names one of the two tables of the schema; an error for
any other plain word, which names no table (SQLite built without optional
virtual tables has none whose name is a plain word); the answer of the engine
for every other text. -/
def Store.countQuery (eng : Engine) (db : Store) (tableName : String) : QueryResult Int :=
  if sameName tableName "plays" then .rows [(db.plays.length : Int)]
  else if sameName tableName "tracks" then .rows [(db.tracks.length : Int)]
  else if isWord tableName then .failed ("no such table: " ++ tableName)
  else eng.countOther db tableName

/-- The body of countForTable after `db.Query`: with an error the message is
printed, the cursor is nil and `rows.Next()` dereferences it; otherwise the
count in the first row, or -1 when the cursor has no row. -/
def countForTableOf : QueryResult Int → Outcome Int
  | .failed _ => .panicked
  | .rows [] => .returned (-1)
  | .rows (total :: _) => .returned total

/-- The function countForTable of db.go. -/
def countForTable (eng : Engine) (db : Store) (tableName : String) : Outcome Int :=
  countForTableOf (db.countQuery eng tableName)

/-! ## The report -/

/-- Modelled from the spec: the type TraktorByYearAndMonth is declared
outside db.go; getTraktorData sets its Year, Month and Charts (a month
section of the report). -/
structure TraktorByYearAndMonth where
  Year : Int
  Month : Int
  Charts : List ChartEntry
  deriving DecidableEq

/-- Modelled from the spec: the type TraktorDataByYear is declared outside
db.go; getTraktorData sets its Year, Charts and ByMonth (a year section of
the report). -/
structure TraktorDataByYear where
  Year : Int
  Charts : List ChartEntry
  ByMonth : List TraktorByYearAndMonth
  deriving DecidableEq

/-- Modelled from the spec: the type TraktorData is declared outside db.go;
getTraktorData sets its Plays, Tracks and ByYear (the report). -/
structure TraktorData where
  Plays : Int
  Tracks : Int
  ByYear : List TraktorDataByYear
  deriving DecidableEq

/-- The values of `for year := 2020; year > 2010; year--`. -/
def reportYears : List Int := [2020, 2019, 2018, 2017, 2016, 2015, 2014, 2013, 2012, 2011]

/-- The values of `for month := 12; month > 0; month--`. -/
def reportMonths : List Int := [12, 11, 10, 9, 8, 7, 6, 5, 4, 3, 2, 1]

/-- One pass of the month loop of getTraktorData. -/
def monthStep (eng : Engine) (db : Store) (year : Int) (yearlyData : TraktorDataByYear)
    (month : Int) : TraktorDataByYear :=
  let monthlyData : TraktorByYearAndMonth :=
    { Year := year, Month := month,
      Charts := findChartEntriesByMonthAndYear eng db month year }
  if monthlyData.Charts.length > 0 then
    { yearlyData with ByMonth := yearlyData.ByMonth ++ [monthlyData] }
  else yearlyData

/-- One pass of the year loop of getTraktorData. -/
def yearStep (eng : Engine) (db : Store) (traktorData : TraktorData) (year : Int) :
    TraktorData :=
  let yearlyEntries := findChartEntriesByYear eng db year
  if yearlyEntries.length > 0 then
    let yearlyData : TraktorDataByYear := { Year := year, Charts := yearlyEntries, ByMonth := [] }
    let yearlyData := reportMonths.foldl (monthStep eng db year) yearlyData
    { traktorData with ByYear := traktorData.ByYear ++ [yearlyData] }
  else traktorData

/-- The function getTraktorData of db.go. -/
def getTraktorData (eng : Engine) (db : Store) : Outcome TraktorData :=
  match countForTable eng db "plays" with
  | .panicked => .panicked
  | .returned playCount =>
    match countForTable eng db "tracks" with
    | .panicked => .panicked
    | .returned trackCount =>
      .returned (reportYears.foldl (yearStep eng db)
        { Plays := playCount, Tracks := trackCount, ByYear := [] })

/-! ## Invariants and counts -/

/-- The constraints under which the program keeps its store: the primary keys
of both tables and the UNIQUE audio_id hold, and track rowids are the positive
ones SQLite assigns. -/
abbrev Store.Valid (db : Store) : Prop :=
  (db.tracks.map (·.id)).Nodup ∧ (db.tracks.map (·.audio_id)).Nodup ∧
    (db.plays.map (·.id)).Nodup ∧ ∀ t ∈ db.tracks, 1 ≤ t.id

/-- The UNIQUE constraint on audio_id in the terms of SQL: no two track rows
store audio_ids that are equal as SQL values. -/
abbrev Store.DistinctAudio (db : Store) : Prop :=
  db.tracks.Pairwise (fun a b => SqlVal.eq a.audio_id b.audio_id = false)

/-- The play row insertEntry appends for a record resolved to track id tid. -/
def playRowOf (db : Store) (tid : Int) (ec : TraktorXMLEntryCollection) : PlayRow :=
  { id := nextRowid (db.plays.map (·.id))
    track_id := tid
    year := ec.Year
    month := ec.Month
    day := ec.Day
    hour := ec.Hour
    minute := ec.Minute }

/-- The number of play rows inside the window of q whose track_id is k. -/
def playsInWindow (db : Store) (q : ChartStatement) (k : Int) : Nat :=
  (db.plays.filter (fun p => q.inWindow p && decide (p.track_id = k))).length

/-- The chart entry of a track row with a play count: what chartEntryForRows
scans from the result row of the group of that track. -/
def chartEntryOf (eng : Engine) (t : TrackRow) (count : Nat) : ChartEntry :=
  chartEntryForRows eng { track_id := t.id, track := t, total := count }

/-- The ids of the distinct tracks that have a play inside the window of q. -/
def chartedTracks (db : Store) (q : ChartStatement) : List Int :=
  ((db.tracks.map (·.id)).dedup).filter
    (fun k => db.plays.any (fun p => q.inWindow p && decide (p.track_id = k)))

/-- A play row is the one recorded for a record, in the terms of the store: it
carries the five time fields of the record, and its track_id is the id of a
track row whose stored audio_id equals, as SQL values, the stored form of the
audio_id of the record. -/
def recordedFor (eng : Engine) (db : Store) (p : PlayRow)
    (r : TraktorXMLEntryCollection × TraktorXMLEntry) : Prop :=
  p.year = r.1.Year ∧ p.month = r.1.Month ∧ p.day = r.1.Day ∧ p.hour = r.1.Hour ∧
    p.minute = r.1.Minute ∧
    ∃ t ∈ db.tracks, t.id = p.track_id ∧
      SqlVal.eq t.audio_id (numericAffinity eng r.2.AudioId) = true

/-! ## Evaluation without the engine -/

/-- An engine for evaluating examples.  It is consulted only for texts that
look numeric without being plain integer literals, for REAL values and for
names outside the schema; the examples have none of these. -/
def plainEngine : Engine :=
  { realAffinity := fun _ => none
    formatFloat := fun _ => ""
    countOther := fun _ _ => .failed "not evaluated" }

/-- A text whose stored value does not depend on the engine: it does not look
numeric, or it is a plain integer literal below 2^63. -/
def engineFreeText (s : String) : Bool :=
  !looksNumeric s || (integerLiteral s).isSome

/-- A track descriptor whose five texts are stored without the engine. -/
def engineFreeEntry (e : TraktorXMLEntry) : Bool :=
  engineFreeText e.Artist && engineFreeText e.Title && engineFreeText e.Genre &&
    engineFreeText e.Key && engineFreeText e.AudioId

/-- A stored value that is not a REAL. -/
def SqlVal.notReal : SqlVal → Bool
  | .real _ => false
  | _ => true

/-- A track row whose texts are scanned without the engine. -/
def TrackRow.notReal (t : TrackRow) : Bool :=
  t.artist.notReal && t.name.notReal && t.genre.notReal && t.key.notReal

/-- The value a call returned, or a default when it panicked. -/
def Outcome.valueOr {α : Type} (d : α) : Outcome α → α
  | .returned v => v
  | .panicked => d

/-! ## Sample records -/

/-- A play time in March 2015. -/
def march2015 : TraktorXMLEntryCollection :=
  { Year := 2015, Month := 3, Day := 14, Hour := 22, Minute := 5 }

/-- A later play time in March 2015. -/
def march2015late : TraktorXMLEntryCollection :=
  { Year := 2015, Month := 3, Day := 28, Hour := 1, Minute := 40 }

/-- Track A of the end-to-end scenario: fingerprint a1, artist Zed. -/
def trackA : TraktorXMLEntry :=
  { Artist := "Zed", Title := "Night Drive", Genre := "Techno", Bpm := 128, Key := "8m",
    Length := 372, AudioId := "a1" }

/-- Track B of the end-to-end scenario: fingerprint b1, artist Abel. -/
def trackB : TraktorXMLEntry :=
  { Artist := "Abel", Title := "Low Tide", Genre := "House", Bpm := 122, Key := "5d",
    Length := 415, AudioId := "b1" }

/-- Track A seen again with other metadata under the same fingerprint. -/
def trackAretagged : TraktorXMLEntry :=
  { Artist := "Zed (live)", Title := "Night Drive 2", Genre := "Trance", Bpm := 130, Key := "9m",
    Length := 380, AudioId := "a1" }

/-- A track of the band whose name is the text 311. -/
def trackBy311 : TraktorXMLEntry :=
  { Artist := "311", Title := "Down", Genre := "Rock", Bpm := 100, Key := "1m",
    Length := 173, AudioId := "c1" }

/-- A track of the band whose name is the text 1349. -/
def trackBy1349 : TraktorXMLEntry :=
  { Artist := "1349", Title := "Riders", Genre := "Metal", Bpm := 180, Key := "2m",
    Length := 271, AudioId := "d1" }

/-- A track whose title is the text 007. -/
def track007 : TraktorXMLEntry :=
  { Artist := "Bond", Title := "007", Genre := "Score", Bpm := 96, Key := "4m",
    Length := 185, AudioId := "f1" }

/-- The track of title 007 seen again with other metadata under the same
fingerprint. -/
def track007retagged : TraktorXMLEntry :=
  { Artist := "Barry", Title := "Theme", Genre := "Jazz", Bpm := 97, Key := "5m",
    Length := 190, AudioId := "f1" }

/-- A track whose audio fingerprint is the text 7. -/
def trackPrint7 : TraktorXMLEntry :=
  { Artist := "Uno", Title := "First", Genre := "Pop", Bpm := 110, Key := "3d",
    Length := 201, AudioId := "7" }

/-- A track whose audio fingerprint is the text 007, with other metadata. -/
def trackPrint007 : TraktorXMLEntry :=
  { Artist := "Dos", Title := "Second", Genre := "Folk", Bpm := 90, Key := "6d",
    Length := 244, AudioId := "007" }

/-- Eleven tracks whose artist names are the texts 1 to 11, each with its own
fingerprint and one play in March 2015. -/
def elevenNumberedArtists : List (TraktorXMLEntryCollection × TraktorXMLEntry) :=
  (List.range 11).map (fun i =>
    (march2015,
     { Artist := toString (i + 1), Title := "Track", Genre := "Pop", Bpm := 120, Key := "1m",
       Length := 180, AudioId := "t" ++ toString (i + 1) }))

/-- The artist names 1 to 11 in ascending order as strings. -/
def elevenArtistsAscending : List String :=
  (elevenNumberedArtists.map (fun r => r.2.Artist)).insertionSort
    (fun a b => stringLe a b = true)

/-- A store with tracks A and B, two plays in March 2015 and one in December
2014. -/
def sampleStore : Store :=
  { tracks :=
      [{ id := 1, bpm := 128, key := .text "8m", name := .text "Night Drive",
         genre := .text "Techno", artist := .text "Zed", length := 372,
         audio_id := .text "a1" },
       { id := 2, bpm := 122, key := .text "5d", name := .text "Low Tide",
         genre := .text "House", artist := .text "Abel", length := 415,
         audio_id := .text "b1" }]
    plays :=
      [{ id := 1, track_id := 1, year := 2015, month := 3, day := 14, hour := 22, minute := 5 },
       { id := 2, track_id := 2, year := 2015, month := 3, day := 28, hour := 1, minute := 40 },
       { id := 3, track_id := 1, year := 2014, month := 12, day := 31, hour := 23,
         minute := 59 }] }

/-! ## The report, section by section -/

/-- The month sections getTraktorData keeps for a year. -/
def monthSections (eng : Engine) (db : Store) (year : Int) : List TraktorByYearAndMonth :=
  reportMonths.filterMap (fun month =>
    if findChartEntriesByMonthAndYear eng db month year = [] then none
    else some { Year := year, Month := month,
                Charts := findChartEntriesByMonthAndYear eng db month year })

/-- The year sections getTraktorData keeps. -/
def yearSections (eng : Engine) (db : Store) : List TraktorDataByYear :=
  reportYears.filterMap (fun year =>
    if findChartEntriesByYear eng db year = [] then none
    else some { Year := year, Charts := findChartEntriesByYear eng db year,
                ByMonth := monthSections eng db year })

/-- A text that does not look numeric is stored as it is. -/
theorem numericAffinity_of_not_numeric (eng : Engine) (s : String)
    (h : looksNumeric s = false) : numericAffinity eng s = .text s := by
  simp [numericAffinity, h]

/-- A plain integer literal below 2^63 is stored as that INTEGER. -/
theorem numericAffinity_of_integerLiteral (eng : Engine) (s : String) (n : Int)
    (h1 : looksNumeric s = true) (h2 : integerLiteral s = some n) :
    numericAffinity eng s = .int n := by
  simp [numericAffinity, h1, h2]

/-- A text that does not look numeric is read back unchanged. -/
theorem scanString_numericAffinity_of_not_numeric (eng : Engine) (s : String)
    (h : looksNumeric s = false) : (numericAffinity eng s).scanString eng = s := by
  rw [numericAffinity_of_not_numeric eng s h]
  rfl

theorem numericAffinity_engineFree (eng : Engine) (s : String) (h : engineFreeText s = true) :
    numericAffinity eng s = numericAffinity plainEngine s := by
  unfold engineFreeText at h
  by_cases h1 : looksNumeric s = true
  · rcases h2 : integerLiteral s with _ | n
    · simp [h1, h2] at h
    · rw [numericAffinity_of_integerLiteral eng s n h1 h2,
        numericAffinity_of_integerLiteral plainEngine s n h1 h2]
  · have h1f : looksNumeric s = false := by simpa using h1
    rw [numericAffinity_of_not_numeric eng s h1f, numericAffinity_of_not_numeric plainEngine s h1f]

theorem scanString_notReal (eng : Engine) (v : SqlVal) (h : v.notReal = true) :
    v.scanString eng = v.scanString plainEngine := by
  cases v with
  | int n => rfl
  | real r => simp [SqlVal.notReal] at h
  | text s => rfl

theorem sqlEq_refl (a : SqlVal) : SqlVal.eq a a = true := by
  cases a <;> simp [SqlVal.eq]

theorem sqlEq_symm (a b : SqlVal) : SqlVal.eq a b = SqlVal.eq b a := by
  cases a <;> cases b <;> simp [SqlVal.eq, eq_comm]

theorem sqlEq_trans (a b c : SqlVal) :
    SqlVal.eq a b = true → SqlVal.eq b c = true → SqlVal.eq a c = true := by
  cases a <;> cases b <;> cases c <;> simp [SqlVal.eq]
  all_goals (intro h1 h2; simp_all)

/-! ## The order of ORDER BY -/

theorem lexLe_total : ∀ a b : List Char, lexLe a b = true ∨ lexLe b a = true
  | [], _ => by simp [lexLe]
  | _ :: _, [] => by simp [lexLe]
  | a :: as, b :: bs => by
    rcases Nat.lt_trichotomy a.toNat b.toNat with h | h | h
    · left; simp [lexLe, h]
    · have := lexLe_total as bs
      simpa [lexLe, h] using this
    · right; simp [lexLe, h]

theorem lexLe_trans : ∀ a b c : List Char, lexLe a b = true → lexLe b c = true → lexLe a c = true
  | [], _, _ => by simp [lexLe]
  | _ :: _, [], _ => by simp [lexLe]
  | _ :: _, _ :: _, [] => by simp [lexLe]
  | a :: as, b :: bs, c :: cs => by
    intro hab hbc
    simp only [lexLe] at hab hbc ⊢
    by_cases h1 : a.toNat < b.toNat
    · by_cases h2 : b.toNat < c.toNat
      · have : a.toNat < c.toNat := by omega
        simp [this]
      · by_cases h3 : c.toNat < b.toNat
        · simp [h2, h3] at hbc
        · have : a.toNat < c.toNat := by omega
          simp [this]
    · by_cases h1b : b.toNat < a.toNat
      · simp [h1, h1b] at hab
      · simp only [h1, h1b, if_false] at hab
        by_cases h2 : b.toNat < c.toNat
        · have : a.toNat < c.toNat := by omega
          simp [this]
        · by_cases h3 : c.toNat < b.toNat
          · simp [h2, h3] at hbc
          · simp only [h2, h3, if_false] at hbc
            have e1 : ¬ a.toNat < c.toNat := by omega
            have e2 : ¬ c.toNat < a.toNat := by omega
            simp only [e1, e2, if_false]
            exact lexLe_trans as bs cs hab hbc

theorem char_lt_iff_toNat (a b : Char) : a < b ↔ a.toNat < b.toNat := Iff.rfl

theorem lexLe_iff_not_lt : ∀ a b : List Char, lexLe a b = true ↔ ¬ List.lt b a
  | [], b => by
    simp only [lexLe, true_iff]
    intro h
    cases h
  | a :: as, [] => by
    simp only [lexLe, Bool.false_eq_true, false_iff, not_not]
    exact List.lt.nil a as
  | a :: as, b :: bs => by
    simp only [lexLe]
    by_cases h1 : a.toNat < b.toNat
    · simp only [h1, if_true, true_iff]
      intro h
      cases h with
      | head _ _ h => rw [char_lt_iff_toNat] at h; omega
      | tail h2 h3 _ => rw [char_lt_iff_toNat] at h3; exact h3 h1
    · by_cases h2 : b.toNat < a.toNat
      · simp only [h1, h2, if_false, if_true, Bool.false_eq_true, false_iff, not_not]
        exact List.lt.head _ _ ((char_lt_iff_toNat b a).mpr h2)
      · simp only [h1, h2, if_false]
        rw [lexLe_iff_not_lt as bs]
        constructor
        · intro h hlt
          cases hlt with
          | head _ _ h3 => rw [char_lt_iff_toNat] at h3; exact h2 h3
          | tail _ _ h5 => exact h h5
        · intro h hlt
          exact h (List.lt.tail (by rw [char_lt_iff_toNat]; exact h2)
            (by rw [char_lt_iff_toNat]; exact h1) hlt)

/-- The comparison stringLe is the order of strings: lexicographic over the
characters. -/
theorem stringLe_iff (a b : String) : stringLe a b = true ↔ a ≤ b := by
  rw [← not_lt, String.lt_iff_toList_lt, stringLe, lexLe_iff_not_lt, List.lt_iff_lex_lt]
  exact Iff.rfl

theorem doubleLe_total (a b : Double) : Double.le a b = true ∨ Double.le b a = true := by
  cases a <;> cases b <;> simp [Double.le]
  exact le_total _ _

theorem doubleLe_trans (a b c : Double) :
    Double.le a b = true → Double.le b c = true → Double.le a c = true := by
  cases a <;> cases b <;> cases c <;> simp [Double.le]
  exact fun h1 h2 => le_trans h1 h2

theorem sqlLe_total (a b : SqlVal) : SqlVal.le a b = true ∨ SqlVal.le b a = true := by
  cases a <;> cases b <;> simp only [SqlVal.le, stringLe, decide_eq_true_eq, true_or, or_true]
  · exact Int.le_total _ _
  · exact doubleLe_total _ _
  · exact doubleLe_total _ _
  · exact doubleLe_total _ _
  · exact lexLe_total _ _

theorem sqlLe_int_int (a b : Int) :
    decide (a ≤ b) = Double.le (.finite (a : ℚ)) (.finite (b : ℚ)) := by
  simp [Double.le]

theorem sqlLe_trans (a b c : SqlVal) :
    SqlVal.le a b = true → SqlVal.le b c = true → SqlVal.le a c = true := by
  cases a <;> cases b <;> cases c <;>
    simp only [SqlVal.le, stringLe, sqlLe_int_int, Bool.false_eq_true, imp_self,
      implies_true, false_implies]
  all_goals first
    | exact doubleLe_trans _ _ _
    | exact lexLe_trans _ _ _

theorem rankLe_total (g1 g2 : ChartGroup) : rankLe g1 g2 = true ∨ rankLe g2 g1 = true := by
  simp only [rankLe, Bool.or_eq_true, Bool.and_eq_true, decide_eq_true_eq]
  rcases Nat.lt_trichotomy g1.total g2.total with h | h | h
  · right; left; exact h
  · rcases sqlLe_total g1.track.artist g2.track.artist with h2 | h2
    · left; right; exact ⟨h, h2⟩
    · right; right; exact ⟨h.symm, h2⟩
  · left; left; exact h

theorem rankLe_trans (g1 g2 g3 : ChartGroup) :
    rankLe g1 g2 = true → rankLe g2 g3 = true → rankLe g1 g3 = true := by
  simp only [rankLe, Bool.or_eq_true, Bool.and_eq_true, decide_eq_true_eq]
  rintro (h1 | ⟨h1, a1⟩) (h2 | ⟨h2, a2⟩)
  · left; omega
  · left; omega
  · left; omega
  · right; exact ⟨by omega, sqlLe_trans _ _ _ a1 a2⟩

theorem ranking_sorted (db : Store) (q : ChartStatement) :
    (ranking db q).Sorted (fun g1 g2 => rankLe g1 g2 = true) :=
  @List.sorted_insertionSort _ (fun g1 g2 => rankLe g1 g2 = true) _ ⟨rankLe_total⟩
    ⟨rankLe_trans⟩ _

/-! ## Rowids and insertEntry -/

theorem maxRowid_eq_none {ids : List Int} (h : maxRowid ids = none) : ids = [] := by
  cases ids with
  | nil => rfl
  | cons x xs =>
    simp only [maxRowid] at h
    split at h <;> simp at h

theorem maxRowid_mem : ∀ {ids : List Int} {m : Int}, maxRowid ids = some m → m ∈ ids
  | [], _, h => by simp [maxRowid] at h
  | x :: xs, m, h => by
    simp only [maxRowid] at h
    split at h
    · simp only [Option.some.injEq] at h
      simp [h]
    · rename_i m0 hm0
      simp only [Option.some.injEq] at h
      have := maxRowid_mem hm0
      rcases max_choice x m0 with hc | hc
      · rw [hc] at h; simp [h]
      · rw [hc] at h; subst h; simp [this]

theorem le_maxRowid : ∀ {ids : List Int} {m : Int}, maxRowid ids = some m → ∀ x ∈ ids, x ≤ m
  | [], _, h => by simp [maxRowid] at h
  | y :: ys, m, h => by
    intro x hx
    simp only [maxRowid] at h
    split at h
    · rename_i hn
      simp only [Option.some.injEq] at h
      have := maxRowid_eq_none hn
      subst this
      simp only [List.mem_singleton] at hx
      omega
    · rename_i m0 hm0
      simp only [Option.some.injEq] at h
      have ih := le_maxRowid hm0
      rcases List.mem_cons.mp hx with hx | hx
      · subst hx; subst h; exact le_max_left _ _
      · have := ih x hx
        subst h
        exact le_trans this (le_max_right _ _)

theorem nextRowid_not_mem (ids : List Int) : nextRowid ids ∉ ids := by
  intro hmem
  unfold nextRowid at hmem
  split at hmem
  · rename_i hn
    rw [maxRowid_eq_none hn] at hmem
    simp at hmem
  · rename_i m hm
    have := le_maxRowid hm _ hmem
    omega

theorem nextRowid_pos (ids : List Int) (h : ∀ x ∈ ids, 1 ≤ x) : 1 ≤ nextRowid ids := by
  unfold nextRowid
  split
  · exact le_refl _
  · rename_i m hm
    have := h m (maxRowid_mem hm)
    omega

theorem insertEntry_fresh (eng : Engine) (db : Store) (ec : TraktorXMLEntryCollection)
    (e : TraktorXMLEntry)
    (h : ∀ t ∈ db.tracks, SqlVal.eq t.audio_id (numericAffinity eng e.AudioId) = false) :
    insertEntry eng db ec e = .returned
      { tracks := db.tracks ++ [trackRowOf eng (nextRowid (db.tracks.map (·.id))) e]
        plays := db.plays ++ [playRowOf db (nextRowid (db.tracks.map (·.id))) ec] } := by
  have hany : db.tracks.any
      (fun t => SqlVal.eq t.audio_id (numericAffinity eng e.AudioId)) = false := by
    rw [List.any_eq_false]
    intro t ht
    simp [h t ht]
  have hfil : db.tracks.filter
      (fun t => SqlVal.eq t.audio_id (numericAffinity eng e.AudioId)) = [] := by
    rw [List.filter_eq_nil_iff]
    intro t ht
    simp [h t ht]
  simp [insertEntry, insertTrackStatment, hany, findTrackByAudioId, selectIdByAudioId,
    List.filter_append, hfil, trackRowOf, findTrackByAudioIdOf, insertPlay, insertPlayStatment,
    playRowOf, sqlEq_refl]

theorem insertEntry_known (eng : Engine) (db : Store) (ec : TraktorXMLEntryCollection)
    (e : TraktorXMLEntry) (t : TrackRow) (ts : List TrackRow)
    (h : db.tracks.filter
      (fun t => SqlVal.eq t.audio_id (numericAffinity eng e.AudioId)) = t :: ts) :
    insertEntry eng db ec e = .returned
      { tracks := db.tracks, plays := db.plays ++ [playRowOf db t.id ec] } := by
  have hany : db.tracks.any
      (fun t => SqlVal.eq t.audio_id (numericAffinity eng e.AudioId)) = true := by
    rw [List.any_eq_true]
    have : t ∈ db.tracks.filter
        (fun t => SqlVal.eq t.audio_id (numericAffinity eng e.AudioId)) := by
      rw [h]; simp
    exact ⟨t, (List.mem_filter.mp this).1, (List.mem_filter.mp this).2⟩
  simp [insertEntry, insertTrackStatment, hany, findTrackByAudioId, selectIdByAudioId, h,
    findTrackByAudioIdOf, insertPlay, insertPlayStatment, playRowOf]

/-- Every insertEntry call on a store returns; it appends one play row, whose
track_id is the id of a track row whose stored audio_id equals that of the
record as SQL values, and it appends at most the track row of the record. -/
theorem insertEntry_returns (eng : Engine) (db : Store) (ec : TraktorXMLEntryCollection)
    (e : TraktorXMLEntry) :
    ∃ tid : Int, ∃ added : List TrackRow,
      insertEntry eng db ec e = .returned
        { tracks := db.tracks ++ added, plays := db.plays ++ [playRowOf db tid ec] } ∧
      (added = [] ∨
        ((∀ t ∈ db.tracks, SqlVal.eq t.audio_id (numericAffinity eng e.AudioId) = false) ∧
          added = [trackRowOf eng (nextRowid (db.tracks.map (·.id))) e])) ∧
      ∃ t ∈ db.tracks ++ added, t.id = tid ∧
        SqlVal.eq t.audio_id (numericAffinity eng e.AudioId) = true := by
  rcases hf : db.tracks.filter
      (fun t => SqlVal.eq t.audio_id (numericAffinity eng e.AudioId)) with _ | ⟨t, ts⟩
  · have hno : ∀ t ∈ db.tracks,
        SqlVal.eq t.audio_id (numericAffinity eng e.AudioId) = false := by
      rw [List.filter_eq_nil_iff] at hf
      intro t ht
      simpa using hf t ht
    exact ⟨_, _, insertEntry_fresh eng db ec e hno, Or.inr ⟨hno, rfl⟩, _,
      List.mem_append_right _ (List.mem_singleton.mpr rfl), rfl, sqlEq_refl _⟩
  · have hmem : t ∈ db.tracks.filter
        (fun t => SqlVal.eq t.audio_id (numericAffinity eng e.AudioId)) := by
      rw [hf]; simp
    refine ⟨t.id, [], ?_, Or.inl rfl, t, ?_, rfl, ?_⟩
    · simpa using insertEntry_known eng db ec e t ts hf
    · simpa using (List.mem_filter.mp hmem).1
    · exact (List.mem_filter.mp hmem).2

theorem valid_emptyStore : emptyStore.Valid := by decide

theorem insertEntry_valid (eng : Engine) (db db1 : Store) (ec : TraktorXMLEntryCollection)
    (e : TraktorXMLEntry) (hv : db.Valid) (h : insertEntry eng db ec e = .returned db1) :
    db1.Valid := by
  obtain ⟨tid, added, heq, hadd, -⟩ := insertEntry_returns eng db ec e
  rw [heq] at h
  injection h with h
  subst h
  obtain ⟨h1, h2, h3, h4⟩ := hv
  have hplays : ((db.plays ++ [playRowOf db tid ec]).map (·.id)).Nodup := by
    rw [List.map_append, List.nodup_append]
    refine ⟨h3, by simp, ?_⟩
    intro a ha hb
    simp only [List.map_cons, List.map_nil, List.mem_singleton] at hb
    subst hb
    exact nextRowid_not_mem _ ha
  rcases hadd with hadd | ⟨hno, hadd⟩
  · subst hadd
    refine ⟨?_, ?_, hplays, ?_⟩
    · simpa using h1
    · simpa using h2
    · simpa using h4
  · subst hadd
    refine ⟨?_, ?_, hplays, ?_⟩
    · show ((db.tracks ++ _).map (·.id)).Nodup
      rw [List.map_append, List.nodup_append]
      refine ⟨h1, by simp, ?_⟩
      intro a ha hb
      simp only [List.map_cons, List.map_nil, List.mem_singleton, trackRowOf] at hb
      subst hb
      exact nextRowid_not_mem _ ha
    · show ((db.tracks ++ _).map (·.audio_id)).Nodup
      rw [List.map_append, List.nodup_append]
      refine ⟨h2, by simp, ?_⟩
      intro a ha hb
      simp only [List.map_cons, List.map_nil, List.mem_singleton, trackRowOf] at hb
      subst hb
      obtain ⟨t, ht, hta⟩ := List.mem_map.mp ha
      have := hno t ht
      rw [hta, sqlEq_refl] at this
      exact Bool.noConfusion this
    · intro t ht
      rcases List.mem_append.mp ht with ht | ht
      · exact h4 t ht
      · simp only [List.mem_singleton] at ht
        subst ht
        exact nextRowid_pos _ (by
          intro x hx
          obtain ⟨t, ht, rfl⟩ := List.mem_map.mp hx
          exact h4 t ht)

theorem insertEntry_distinctAudio (eng : Engine) (db db1 : Store)
    (ec : TraktorXMLEntryCollection) (e : TraktorXMLEntry) (hd : db.DistinctAudio)
    (h : insertEntry eng db ec e = .returned db1) : db1.DistinctAudio := by
  obtain ⟨tid, added, heq, hadd, -⟩ := insertEntry_returns eng db ec e
  rw [heq] at h
  injection h with h
  subst h
  rcases hadd with hadd | ⟨hno, hadd⟩
  · subst hadd
    simpa [Store.DistinctAudio] using hd
  · subst hadd
    show (db.tracks ++ _).Pairwise _
    rw [List.pairwise_append]
    refine ⟨hd, List.pairwise_singleton _ _, ?_⟩
    intro a ha b hb
    simp only [List.mem_singleton] at hb
    subst hb
    exact hno a ha

/-! ## Records stored without the engine -/

theorem trackRowOf_engineFree (eng : Engine) (id : Int) (e : TraktorXMLEntry)
    (h : engineFreeEntry e = true) : trackRowOf eng id e = trackRowOf plainEngine id e := by
  simp only [engineFreeEntry, Bool.and_eq_true] at h
  obtain ⟨⟨⟨⟨h1, h2⟩, h3⟩, h4⟩, h5⟩ := h
  simp only [trackRowOf, numericAffinity_engineFree eng _ h1, numericAffinity_engineFree eng _ h2,
    numericAffinity_engineFree eng _ h3, numericAffinity_engineFree eng _ h4,
    numericAffinity_engineFree eng _ h5]

theorem insertEntry_engineFree (eng : Engine) (db : Store) (ec : TraktorXMLEntryCollection)
    (e : TraktorXMLEntry) (h : engineFreeEntry e = true) :
    insertEntry eng db ec e = insertEntry plainEngine db ec e := by
  have h5 : engineFreeText e.AudioId = true := by
    simp only [engineFreeEntry, Bool.and_eq_true] at h
    exact h.2
  simp only [insertEntry, insertTrackStatment, findTrackByAudioId, selectIdByAudioId,
    trackRowOf_engineFree eng _ e h, numericAffinity_engineFree eng _ h5]

/-- Records all of whose texts are stored without the engine are ingested the
same way whatever the engine. -/
theorem insertEntries_engineFree (eng : Engine) :
    ∀ (rs : List (TraktorXMLEntryCollection × TraktorXMLEntry)) (db : Store),
      rs.all (fun r => engineFreeEntry r.2) = true →
      insertEntries eng db rs = insertEntries plainEngine db rs
  | [], _, _ => rfl
  | r :: rs, db, h => by
    simp only [List.all_cons, Bool.and_eq_true] at h
    simp only [insertEntries, insertEntry_engineFree eng db r.1 r.2 h.1]
    cases insertEntry plainEngine db r.1 r.2 with
    | panicked => rfl
    | returned db1 => exact insertEntries_engineFree eng rs db1 h.2
/-! ## Grouping and ranking -/

theorem mem_joinedRows {db : Store} {q : ChartStatement} {r : PlayRow × TrackRow} :
    r ∈ joinedRows db q ↔
      r.1 ∈ db.plays ∧ q.inWindow r.1 = true ∧ r.2 ∈ db.tracks ∧ r.1.track_id = r.2.id := by
  obtain ⟨p, t⟩ := r
  simp only [joinedRows, List.mem_flatMap, List.mem_filter, List.mem_map, decide_eq_true_eq,
    Prod.mk.injEq]
  constructor
  · rintro ⟨p0, ⟨hp, hw⟩, t0, ⟨ht, hid⟩, rfl, rfl⟩
    exact ⟨hp, hw, ht, hid⟩
  · rintro ⟨hp, hw, ht, hid⟩
    exact ⟨p, ⟨hp, hw⟩, t, ⟨ht, hid⟩, rfl, rfl⟩

theorem groupOf_of_mem {rows : List (PlayRow × TrackRow)} {k : Int}
    (hk : k ∈ rows.map (fun r => r.1.track_id)) :
    ∃ g, groupOf rows k = some g ∧ g.track_id = k ∧
      g.total = (rows.filter (fun r => decide (r.1.track_id = k))).length ∧
      ∃ r ∈ rows, r.1.track_id = k ∧ g.track = r.2 := by
  obtain ⟨r0, hr0, hk0⟩ := List.mem_map.mp hk
  rcases hf : rows.filter (fun r => decide (r.1.track_id = k)) with _ | ⟨r, rs⟩
  · have : r0 ∈ rows.filter (fun r => decide (r.1.track_id = k)) :=
      List.mem_filter.mpr ⟨hr0, by simpa using hk0⟩
    rw [hf] at this
    simp at this
  · have hr : r ∈ rows.filter (fun r => decide (r.1.track_id = k)) := by rw [hf]; simp
    refine ⟨{ track_id := k, track := r.2, total := (r :: rs).length }, ?_, rfl, ?_,
      r, (List.mem_filter.mp hr).1, ?_, rfl⟩
    · simp only [groupOf, hf]
    · rw [hf]
    · simpa using (List.mem_filter.mp hr).2

theorem filterMap_map_key {α β : Type} (f : α → Option β) (key : β → α) :
    ∀ l : List α, (∀ k ∈ l, ∃ g, f k = some g ∧ key g = k) → (l.filterMap f).map key = l
  | [], _ => rfl
  | k :: l, h => by
    obtain ⟨g, hg, hkey⟩ := h k (List.mem_cons_self _ _)
    rw [List.filterMap_cons_some hg, List.map_cons, hkey,
      filterMap_map_key f key l (fun k hk => h k (List.mem_cons_of_mem _ hk))]

theorem mem_groupKeys {rows : List (PlayRow × TrackRow)} {k : Int} :
    k ∈ groupKeys rows ↔ k ∈ rows.map (fun r => r.1.track_id) := by
  unfold groupKeys
  rw [(List.perm_insertionSort _ _).mem_iff, List.mem_dedup]

theorem groupKeys_nodup (rows : List (PlayRow × TrackRow)) : (groupKeys rows).Nodup := by
  unfold groupKeys
  rw [(List.perm_insertionSort _ _).nodup_iff]
  exact List.nodup_dedup _

theorem groupKeys_length (rows : List (PlayRow × TrackRow)) :
    (groupKeys rows).length = ((rows.map (fun r => r.1.track_id)).dedup).length := by
  unfold groupKeys
  exact List.length_insertionSort _ _

theorem groupRows_map_track_id (rows : List (PlayRow × TrackRow)) :
    (groupRows rows).map (·.track_id) = groupKeys rows := by
  unfold groupRows
  apply filterMap_map_key
  intro k hk
  obtain ⟨g, hg, hgk, -⟩ := groupOf_of_mem (mem_groupKeys.mp hk)
  exact ⟨g, hg, hgk⟩

theorem mem_groupRows {rows : List (PlayRow × TrackRow)} {g : ChartGroup}
    (hg : g ∈ groupRows rows) :
    g.total = (rows.filter (fun r => decide (r.1.track_id = g.track_id))).length ∧
      ∃ r ∈ rows, r.1.track_id = g.track_id ∧ g.track = r.2 := by
  unfold groupRows at hg
  obtain ⟨k, hk, hgk⟩ := List.mem_filterMap.mp hg
  obtain ⟨g0, hg0, hk0, htot, hr⟩ := groupOf_of_mem (mem_groupKeys.mp hk)
  rw [hg0] at hgk
  injection hgk with hgk
  subst hgk
  subst hk0
  exact ⟨htot, hr⟩

theorem ranking_perm (db : Store) (q : ChartStatement) :
    (ranking db q).Perm (groupRows (joinedRows db q)) :=
  List.perm_insertionSort _ _

theorem ranking_nodup (db : Store) (q : ChartStatement) :
    ((ranking db q).map (·.track_id)).Nodup := by
  rw [((ranking_perm db q).map _).nodup_iff, groupRows_map_track_id]
  exact groupKeys_nodup _

theorem mem_ranking {db : Store} {q : ChartStatement} {g : ChartGroup}
    (hg : g ∈ ranking db q) :
    g.total = ((joinedRows db q).filter (fun r => decide (r.1.track_id = g.track_id))).length ∧
      g.track ∈ db.tracks ∧ g.track.id = g.track_id := by
  have hg1 : g ∈ groupRows (joinedRows db q) := (ranking_perm db q).mem_iff.mp hg
  obtain ⟨htot, r, hr, hk, htr⟩ := mem_groupRows hg1
  obtain ⟨-, -, ht, hid⟩ := mem_joinedRows.mp hr
  refine ⟨htot, htr ▸ ht, ?_⟩
  rw [htr, ← hid, hk]

theorem length_filter_joined (tracks : List TrackRow) (k : Int) :
    ∀ ps : List PlayRow,
      ((ps.flatMap (fun p => (tracks.filter (fun t => decide (p.track_id = t.id))).map
          (fun t => (p, t)))).filter (fun r => decide (r.1.track_id = k))).length =
        (ps.filter (fun p => decide (p.track_id = k))).length *
          (tracks.filter (fun t => decide (k = t.id))).length
  | [] => by simp
  | p :: ps => by
    rw [List.flatMap_cons, List.filter_append, List.length_append, length_filter_joined tracks k ps]
    by_cases hp : p.track_id = k
    · have h1 : ((tracks.filter (fun t => decide (p.track_id = t.id))).map
          (fun t => (p, t))).filter (fun r => decide (r.1.track_id = k)) =
          (tracks.filter (fun t => decide (p.track_id = t.id))).map (fun t => (p, t)) := by
        rw [List.filter_eq_self]
        intro r hr
        obtain ⟨t, -, rfl⟩ := List.mem_map.mp hr
        simpa using hp
      rw [h1, List.filter_cons_of_pos (by simpa using hp), List.length_map, List.length_cons, hp]
      ring
    · have h1 : ((tracks.filter (fun t => decide (p.track_id = t.id))).map
          (fun t => (p, t))).filter (fun r => decide (r.1.track_id = k)) = [] := by
        rw [List.filter_eq_nil_iff]
        intro r hr
        obtain ⟨t, -, rfl⟩ := List.mem_map.mp hr
        simpa using hp
      rw [h1, List.filter_cons_of_neg (by simpa using hp)]
      simp

theorem length_filter_id_eq_one {tracks : List TrackRow} (hn : (tracks.map (·.id)).Nodup)
    {t : TrackRow} (ht : t ∈ tracks) :
    (tracks.filter (fun t0 => decide (t.id = t0.id))).length = 1 := by
  have h1 : (tracks.map (·.id)).count t.id = 1 :=
    List.count_eq_one_of_mem hn (List.mem_map_of_mem _ ht)
  rw [List.count, List.countP_map, List.countP_eq_length_filter] at h1
  rw [← h1]
  congr 1
  apply List.filter_congr
  intro x _
  simp only [Function.comp, beq_iff_eq, decide_eq_decide]
  by_cases hx : x.id = t.id
  · simp [hx]
  · have hx2 : ¬ t.id = x.id := fun h => hx h.symm
    simp [hx, hx2]

theorem ranking_total {db : Store} {q : ChartStatement} (hn : (db.tracks.map (·.id)).Nodup)
    {g : ChartGroup} (hg : g ∈ ranking db q) :
    g.total = playsInWindow db q g.track_id := by
  obtain ⟨htot, ht, hid⟩ := mem_ranking hg
  rw [htot, joinedRows, length_filter_joined, ← hid, length_filter_id_eq_one hn ht, Nat.mul_one,
    playsInWindow, List.filter_filter]
  congr 1
  apply List.filter_congr
  intro p _
  exact Bool.and_comm _ _


theorem chartEntryForRows_notReal (eng : Engine) (g : ChartGroup)
    (h : g.track.notReal = true) : chartEntryForRows eng g = chartEntryForRows plainEngine g := by
  simp only [TrackRow.notReal, Bool.and_eq_true] at h
  obtain ⟨⟨⟨h1, h2⟩, h3⟩, h4⟩ := h
  simp only [chartEntryForRows, scanString_notReal eng _ h1, scanString_notReal eng _ h2,
    scanString_notReal eng _ h3, scanString_notReal eng _ h4]

/-- On a store whose track rows hold no REAL in their texts a chart is the
same whatever the engine. -/
theorem chartEntryFindBySql_notReal (eng : Engine) (db : Store) (q : ChartStatement)
    (h : db.tracks.all TrackRow.notReal = true) :
    chartEntryFindBySql eng db q = chartEntryFindBySql plainEngine db q := by
  show ((ranking db q).take q.limit).map (chartEntryForRows eng) =
    ((ranking db q).take q.limit).map (chartEntryForRows plainEngine)
  apply List.map_congr_left
  intro g hg
  apply chartEntryForRows_notReal
  rw [List.all_eq_true] at h
  exact h _ (mem_ranking (List.mem_of_mem_take hg)).2.1

/-! ## Claims on inserting -/

/-- Dedupe in the terms of the store: on a store where no track row stores an
audio_id equal (as SQL values) to the stored form of the fingerprint of d1,
insertEntry with d1 and then with a d2 of the same fingerprint both return;
the first call appends one track row, the row of d1 with its texts as the
STRING columns store them; the second call leaves table tracks as it is; that
row is then the only one whose audio_id equals the stored fingerprint. -/
theorem insertEntry_dedupe_stored (eng : Engine) (db : Store)
    (ec1 ec2 : TraktorXMLEntryCollection) (d1 d2 : TraktorXMLEntry)
    (hsame : d1.AudioId = d2.AudioId)
    (hnew : ∀ t ∈ db.tracks, SqlVal.eq t.audio_id (numericAffinity eng d1.AudioId) = false) :
    ∃ db1 db2 : Store, ∃ row : TrackRow,
      insertEntry eng db ec1 d1 = .returned db1 ∧ insertEntry eng db1 ec2 d2 = .returned db2 ∧
      db1.tracks = db.tracks ++ [row] ∧ db2.tracks = db1.tracks ∧
      db2.tracks.filter
        (fun t => SqlVal.eq t.audio_id (numericAffinity eng d1.AudioId)) = [row] ∧
      row.artist = numericAffinity eng d1.Artist ∧ row.name = numericAffinity eng d1.Title ∧
      row.genre = numericAffinity eng d1.Genre ∧ row.bpm = d1.Bpm ∧
      row.key = numericAffinity eng d1.Key ∧ row.length = d1.Length := by
  have hfil : db.tracks.filter
      (fun t => SqlVal.eq t.audio_id (numericAffinity eng d1.AudioId)) = [] := by
    rw [List.filter_eq_nil_iff]
    intro t ht
    simp [hnew t ht]
  have hfil2 : (db.tracks ++ [trackRowOf eng (nextRowid (db.tracks.map (·.id))) d1]).filter
      (fun t => SqlVal.eq t.audio_id (numericAffinity eng d2.AudioId)) =
      [trackRowOf eng (nextRowid (db.tracks.map (·.id))) d1] := by
    rw [← hsame, List.filter_append, hfil]
    simp [trackRowOf, sqlEq_refl]
  refine ⟨_, _, trackRowOf eng (nextRowid (db.tracks.map (·.id))) d1,
    insertEntry_fresh eng db ec1 d1 hnew, insertEntry_known eng _ ec2 d2 _ _ hfil2, rfl, rfl, ?_,
    rfl, rfl, rfl, rfl, rfl, rfl⟩
  rw [hsame]
  exact hfil2

/-- C1 (idempotent dedupe), evaluated where it fails.  First: on the fresh
store a track of title 007 is ingested and then seen again under the same
fingerprint; the one track row holds the INTEGER 7 as its title, read back as
the text 7, not the title of the first-seen descriptor.  Second: the store
holds one track, of fingerprint 7; a descriptor of fingerprint 007, which no
track has, is ingested twice; no track row is added, and the only track row
still carries the artist of the other track. -/
theorem insertEntry_stores_numeric_text_as_number (eng : Engine) :
    (∃ db1 db2 : Store, ∃ row : TrackRow,
      insertEntry eng emptyStore march2015 track007 = .returned db1 ∧
      insertEntry eng db1 march2015late track007retagged = .returned db2 ∧
      db2.tracks = [row] ∧ row.name = .int 7 ∧ row.name.scanString eng = "7" ∧
      row.name.scanString eng ≠ track007.Title) ∧
    (∃ db0 db1 db2 : Store,
      insertEntry eng emptyStore march2015 trackPrint7 = .returned db0 ∧
      trackPrint007.AudioId ≠ trackPrint7.AudioId ∧
      insertEntry eng db0 march2015late trackPrint007 = .returned db1 ∧
      insertEntry eng db1 march2015late trackPrint007 = .returned db2 ∧
      db2.tracks = db0.tracks ∧
      db2.tracks.map (fun t => t.artist.scanString eng) = ["Uno"] ∧
      trackPrint007.Artist = "Dos") := by
  constructor
  · refine ⟨(insertEntry plainEngine emptyStore march2015 track007).valueOr emptyStore,
      (insertEntries plainEngine emptyStore
        [(march2015, track007), (march2015late, track007retagged)]).valueOr emptyStore,
      { id := 1, bpm := 96, key := .text "4m", name := .int 7, genre := .text "Score",
        artist := .text "Bond", length := 185, audio_id := .text "f1" },
      (insertEntry_engineFree eng _ _ _ (by decide)).trans (by decide),
      (insertEntry_engineFree eng _ _ _ (by decide)).trans (by decide),
      by decide, rfl, rfl, ?_⟩
    show toString (7 : Int) ≠ track007.Title
    decide
  · refine ⟨(insertEntry plainEngine emptyStore march2015 trackPrint7).valueOr emptyStore,
      (insertEntries plainEngine emptyStore
        [(march2015, trackPrint7), (march2015late, trackPrint007)]).valueOr emptyStore,
      (insertEntries plainEngine emptyStore
        [(march2015, trackPrint7), (march2015late, trackPrint007),
         (march2015late, trackPrint007)]).valueOr emptyStore,
      (insertEntry_engineFree eng _ _ _ (by decide)).trans (by decide), by decide,
      (insertEntry_engineFree eng _ _ _ (by decide)).trans (by decide),
      (insertEntry_engineFree eng _ _ _ (by decide)).trans (by decide),
      by decide, ?_, rfl⟩
    have h : ((insertEntries plainEngine emptyStore
        [(march2015, trackPrint7), (march2015late, trackPrint007),
         (march2015late, trackPrint007)]).valueOr emptyStore).tracks =
        [{ id := 1, bpm := 110, key := .text "3d", name := .text "First", genre := .text "Pop",
           artist := .text "Uno", length := 201, audio_id := .int 7 }] := by decide
    rw [h]
    rfl

theorem findTrackByAudioId_engineFree (eng : Engine) (db : Store) (f : String)
    (h : engineFreeText f = true) :
    findTrackByAudioId eng db f = findTrackByAudioId plainEngine db f := by
  simp only [findTrackByAudioId, selectIdByAudioId, numericAffinity_engineFree eng f h]

/-- The lookup in the terms of the store: on a store whose track rows have
positive rowids and audio_ids that are pairwise different as SQL values,
findTrackByAudioId returns; the result is -1 exactly when no track row stores
an audio_id equal, as SQL values, to the stored form of f, and otherwise it is
the id of the one row that does. -/
theorem findTrackByAudioId_contract_stored (eng : Engine) (db : Store) (f : String)
    (hd : db.DistinctAudio) (hpos : ∀ t ∈ db.tracks, 1 ≤ t.id) :
    ∃ r : Int, findTrackByAudioId eng db f = .returned r ∧
      (r = -1 ↔ ∀ t ∈ db.tracks, SqlVal.eq t.audio_id (numericAffinity eng f) = false) ∧
      (∀ t ∈ db.tracks, SqlVal.eq t.audio_id (numericAffinity eng f) = true → r = t.id) := by
  rcases hf : db.tracks.filter (fun t => SqlVal.eq t.audio_id (numericAffinity eng f)) with
    _ | ⟨t0, ts⟩
  · have hno : ∀ t ∈ db.tracks, SqlVal.eq t.audio_id (numericAffinity eng f) = false := by
      rw [List.filter_eq_nil_iff] at hf
      intro t ht
      simpa using hf t ht
    refine ⟨-1, by simp [findTrackByAudioId, selectIdByAudioId, hf, findTrackByAudioIdOf], ?_, ?_⟩
    · exact ⟨fun _ => hno, fun _ => rfl⟩
    · intro t ht hta
      rw [hno t ht] at hta
      exact Bool.noConfusion hta
  · have hmem : t0 ∈ db.tracks.filter
        (fun t => SqlVal.eq t.audio_id (numericAffinity eng f)) := by
      rw [hf]; simp
    have ht0 : t0 ∈ db.tracks := (List.mem_filter.mp hmem).1
    have ha0 : SqlVal.eq t0.audio_id (numericAffinity eng f) = true :=
      (List.mem_filter.mp hmem).2
    refine ⟨t0.id, by simp [findTrackByAudioId, selectIdByAudioId, hf, findTrackByAudioIdOf],
      ?_, ?_⟩
    · constructor
      · intro h
        have := hpos t0 ht0
        omega
      · intro h
        rw [h t0 ht0] at ha0
        exact Bool.noConfusion ha0
    · intro t ht hta
      by_cases hne : t0 = t
      · rw [hne]
      · have hsym : Symmetric (fun a b : TrackRow => SqlVal.eq a.audio_id b.audio_id = false) := by
          intro a b hab
          rw [sqlEq_symm]
          exact hab
        have hdiff := List.Pairwise.forall hsym hd ht0 ht hne
        have heq : SqlVal.eq t0.audio_id t.audio_id = true :=
          sqlEq_trans _ _ _ ha0 (by rw [sqlEq_symm]; exact hta)
        rw [hdiff] at heq
        exact Bool.noConfusion heq

/-- C7 (findTrackByAudioId contract), evaluated where it fails: the fresh
store after one record of fingerprint 7 holds one track row, with id 1, whose
audio_id reads back as the text 7; no track row has the audio_id 007, yet
findTrackByAudioId of 007 returns 1 and not -1, because the column audio_id is
declared STRING and both texts are compared as the INTEGER 7. -/
theorem findTrackByAudioId_hits_other_fingerprint (eng : Engine) :
    ∃ db : Store, insertEntry eng emptyStore march2015 trackPrint7 = .returned db ∧
      db.tracks.map (fun t => (t.id, t.audio_id, t.audio_id.scanString eng)) =
        [(1, .int 7, "7")] ∧
      findTrackByAudioId eng db "007" = .returned 1 ∧
      findTrackByAudioId eng db "007" ≠ .returned (-1) ∧
      ("007" : String) ≠ "7" := by
  have h : ((insertEntry plainEngine emptyStore march2015 trackPrint7).valueOr emptyStore).tracks =
      [{ id := 1, bpm := 110, key := .text "3d", name := .text "First", genre := .text "Pop",
         artist := .text "Uno", length := 201, audio_id := .int 7 }] := by decide
  have hfind : findTrackByAudioId eng
      ((insertEntry plainEngine emptyStore march2015 trackPrint7).valueOr emptyStore) "007" =
      .returned 1 :=
    (findTrackByAudioId_engineFree eng _ "007" (by decide)).trans (by decide)
  refine ⟨(insertEntry plainEngine emptyStore march2015 trackPrint7).valueOr emptyStore,
    (insertEntry_engineFree eng _ _ _ (by decide)).trans (by decide), ?_, hfind, ?_, by decide⟩
  · rw [h]
    rfl
  · rw [hfind]
    decide

theorem insertEntries_invariant (eng : Engine) :
    ∀ (rs done : List (TraktorXMLEntryCollection × TraktorXMLEntry)) (db : Store),
      db.Valid → db.DistinctAudio → List.Forall₂ (recordedFor eng db) db.plays done →
      ∃ db1 : Store, insertEntries eng db rs = .returned db1 ∧ db1.Valid ∧ db1.DistinctAudio ∧
        List.Forall₂ (recordedFor eng db1) db1.plays (done ++ rs)
  | [], done, db, hv, hd, hrec => ⟨db, rfl, hv, hd, by simpa using hrec⟩
  | r :: rs, done, db, hv, hd, hrec => by
    obtain ⟨tid, added, heq, -, t, ht, htid, hta⟩ := insertEntry_returns eng db r.1 r.2
    have hv1 := insertEntry_valid eng db _ r.1 r.2 hv heq
    have hd1 := insertEntry_distinctAudio eng db _ r.1 r.2 hd heq
    have hold : List.Forall₂
        (recordedFor eng
          { tracks := db.tracks ++ added, plays := db.plays ++ [playRowOf db tid r.1] })
        db.plays done := by
      refine hrec.imp ?_
      rintro p r0 ⟨h1, h2, h3, h4, h5, t0, ht0, h6⟩
      exact ⟨h1, h2, h3, h4, h5, t0, List.mem_append_left _ ht0, h6⟩
    have hnew : List.Forall₂
        (recordedFor eng
          { tracks := db.tracks ++ added, plays := db.plays ++ [playRowOf db tid r.1] })
        [playRowOf db tid r.1] [r] :=
      List.Forall₂.cons ⟨rfl, rfl, rfl, rfl, rfl, t, ht, htid, hta⟩ List.Forall₂.nil
    obtain ⟨db1, hrun, hv2, hd2, hall⟩ :=
      insertEntries_invariant eng rs (done ++ [r]) _ hv1 hd1 (List.rel_append hold hnew)
    refine ⟨db1, ?_, hv2, hd2, by simpa using hall⟩
    simp only [insertEntries, heq]
    exact hrun

/-- The referential invariant in the terms of the store: any finite sequence
of insertEntry calls on the freshly initialised store returns a store, kept
under its constraints, whose play rows stand one for one and in order for the
records: the play row of a record carries its year, month, day, hour and
minute, and its track_id is the id of a track row of the store whose stored
audio_id equals, as SQL values, the stored form of the fingerprint of the
record.  On any store a single insertEntry call returns and appends exactly
one play row, with the five time fields of its record. -/
theorem insertEntries_plays_reference_tracks (eng : Engine)
    (rs : List (TraktorXMLEntryCollection × TraktorXMLEntry)) :
    (∃ db : Store, insertEntries eng emptyStore rs = .returned db ∧ db.Valid ∧
      db.DistinctAudio ∧ List.Forall₂ (recordedFor eng db) db.plays rs) ∧
    ∀ (db : Store) (ec : TraktorXMLEntryCollection) (e : TraktorXMLEntry),
      ∃ (db1 : Store) (p : PlayRow), insertEntry eng db ec e = .returned db1 ∧
        db1.plays = db.plays ++ [p] ∧ p.year = ec.Year ∧ p.month = ec.Month ∧
        p.day = ec.Day ∧ p.hour = ec.Hour ∧ p.minute = ec.Minute ∧
        ∃ t ∈ db1.tracks, t.id = p.track_id ∧
          SqlVal.eq t.audio_id (numericAffinity eng e.AudioId) = true := by
  constructor
  · have := insertEntries_invariant eng rs [] emptyStore valid_emptyStore
      (by simp [Store.DistinctAudio, emptyStore]) List.Forall₂.nil
    simpa using this
  · intro db ec e
    obtain ⟨tid, added, heq, -, t, ht, htid, hta⟩ := insertEntry_returns eng db ec e
    exact ⟨_, playRowOf db tid ec, heq, rfl, rfl, rfl, rfl, rfl, rfl, t, ht, htid, hta⟩

/-- C8 (play referential invariant), evaluated where it fails: two records
are ingested into the fresh store, the first of fingerprint 7 and the second
of fingerprint 007.  The store ends with one track row, of id 1, whose
audio_id reads back as the text 7, and both play rows name it: the play of the
record of fingerprint 007 does not point at a row whose audio_id is 007, and
no such row exists. -/
theorem insertEntries_conflates_numeric_fingerprints (eng : Engine) :
    ∃ db : Store,
      insertEntries eng emptyStore [(march2015, trackPrint7), (march2015late, trackPrint007)]
        = .returned db ∧
      db.tracks.map (fun t => (t.id, t.audio_id, t.audio_id.scanString eng)) =
        [(1, .int 7, "7")] ∧
      db.plays.map (fun p => (p.track_id, p.day)) = [(1, 14), (1, 28)] ∧
      trackPrint007.AudioId = "007" ∧ ("007" : String) ≠ "7" := by
  have h : ((insertEntries plainEngine emptyStore
      [(march2015, trackPrint7), (march2015late, trackPrint007)]).valueOr emptyStore).tracks =
      [{ id := 1, bpm := 110, key := .text "3d", name := .text "First", genre := .text "Pop",
         artist := .text "Uno", length := 201, audio_id := .int 7 }] := by decide
  refine ⟨(insertEntries plainEngine emptyStore
      [(march2015, trackPrint7), (march2015late, trackPrint007)]).valueOr emptyStore,
    (insertEntries_engineFree eng _ _ (by decide)).trans (by decide), ?_, by decide, rfl,
    by decide⟩
  rw [h]
  rfl

/-! ## Claims on chart queries -/

theorem chartEntryFindBySql_eq (eng : Engine) (db : Store) (q : ChartStatement) :
    chartEntryFindBySql eng db q =
      ((ranking db q).take q.limit).map (chartEntryForRows eng) := rfl

theorem ranking_length (db : Store) (q : ChartStatement) :
    (ranking db q).length = ((joinedRows db q).map (fun r => r.1.track_id)).dedup.length := by
  rw [(ranking_perm db q).length_eq, ← groupKeys_length, ← groupRows_map_track_id,
    List.length_map]

theorem chart_length (eng : Engine) (db : Store) (q : ChartStatement) :
    (chartEntryFindBySql eng db q).length =
      min q.limit ((joinedRows db q).map (fun r => r.1.track_id)).dedup.length := by
  rw [chartEntryFindBySql_eq, List.length_map, List.length_take, ranking_length]

theorem chart_eq_nil_iff (eng : Engine) (db : Store) (q : ChartStatement) (hl : 0 < q.limit) :
    chartEntryFindBySql eng db q = [] ↔ joinedRows db q = [] := by
  rw [← List.length_eq_zero, chart_length]
  constructor
  · intro h
    have h0 : ((joinedRows db q).map (fun r => r.1.track_id)).dedup.length = 0 := by omega
    rw [List.length_eq_zero] at h0
    rcases hj : joinedRows db q with _ | ⟨r, rs⟩
    · rfl
    · have : r.1.track_id ∈ ((joinedRows db q).map (fun r => r.1.track_id)).dedup := by
        rw [List.mem_dedup, hj]; simp
      rw [h0] at this
      simp at this
  · intro h
    simp [h]

/-- With the primary key of tracks in force, a chart is a list of distinct
track rows, each with the number of plays in the window that name it. -/
theorem chart_eq_tracks_with_counts (eng : Engine) (db : Store) (q : ChartStatement)
    (hn : (db.tracks.map (·.id)).Nodup) :
    ∃ ts : List TrackRow, (ts.map (·.id)).Nodup ∧ (∀ t ∈ ts, t ∈ db.tracks) ∧
      chartEntryFindBySql eng db q =
        ts.map (fun t => chartEntryOf eng t (playsInWindow db q t.id)) := by
  have hsub : ∀ g ∈ (ranking db q).take q.limit, g ∈ ranking db q :=
    fun g hg => List.mem_of_mem_take hg
  refine ⟨((ranking db q).take q.limit).map (·.track), ?_, ?_, ?_⟩
  · have h1 : (((ranking db q).take q.limit).map (·.track)).map (·.id) =
        ((ranking db q).take q.limit).map (·.track_id) := by
      rw [List.map_map]
      apply List.map_congr_left
      intro g hg
      exact (mem_ranking (hsub g hg)).2.2
    rw [h1]
    exact ((List.take_sublist _ _).map _).nodup (ranking_nodup db q)
  · intro t ht
    obtain ⟨g, hg, rfl⟩ := List.mem_map.mp ht
    exact (mem_ranking (hsub g hg)).2.1
  · rw [chartEntryFindBySql_eq, List.map_map]
    apply List.map_congr_left
    intro g hg
    have h1 := (mem_ranking (hsub g hg)).2.2
    have h2 := ranking_total hn (hsub g hg)
    simp only [Function.comp, chartEntryOf, chartEntryForRows, h1, ← h2]

theorem insertEntries_one_track (eng : Engine) (f : String) (year month : Int) (t : TrackRow)
    (hta : SqlVal.eq t.audio_id (numericAffinity eng f) = true) :
    ∀ (rs : List (TraktorXMLEntryCollection × TraktorXMLEntry)) (db : Store),
      db.tracks = [t] →
      (∀ r ∈ rs, r.2.AudioId = f ∧ r.1.Year = year ∧ r.1.Month = month) →
      (∀ p ∈ db.plays, p.track_id = t.id ∧ p.year = year ∧ p.month = month) →
      ∃ db1 : Store, insertEntries eng db rs = .returned db1 ∧ db1.tracks = [t] ∧
        db1.plays.length = db.plays.length + rs.length ∧
        ∀ p ∈ db1.plays, p.track_id = t.id ∧ p.year = year ∧ p.month = month
  | [], db, ht, _, hp => ⟨db, rfl, ht, by simp, hp⟩
  | r :: rs, db, ht, hrs, hp => by
    obtain ⟨hf, hy, hm⟩ := hrs r (List.mem_cons_self _ _)
    have hfil : db.tracks.filter
        (fun t => SqlVal.eq t.audio_id (numericAffinity eng r.2.AudioId)) = [t] := by
      rw [ht, hf]; simp [hta]
    have heq := insertEntry_known eng db r.1 r.2 t [] hfil
    obtain ⟨db1, hrun, ht1, hlen, hp1⟩ :=
      insertEntries_one_track eng f year month t hta rs
        { tracks := db.tracks, plays := db.plays ++ [playRowOf db t.id r.1] } ht
        (fun r0 hr0 => hrs r0 (List.mem_cons_of_mem _ hr0))
        (by
          intro p hpm
          rcases List.mem_append.mp hpm with hpm | hpm
          · exact hp p hpm
          · simp only [List.mem_singleton] at hpm
            subst hpm
            exact ⟨rfl, hy, hm⟩)
    refine ⟨db1, ?_, ht1, ?_, hp1⟩
    · simp only [insertEntries, heq]
      exact hrun
    · rw [hlen]
      simp only [List.length_append, List.length_cons, List.length_nil]
      omega

theorem chart_one_track (eng : Engine) (db : Store) (q : ChartStatement) (t : TrackRow)
    (hl : 0 < q.limit)
    (ht : db.tracks = [t]) (hne : db.plays ≠ [])
    (hp : ∀ p ∈ db.plays, p.track_id = t.id ∧ q.inWindow p = true) :
    ∃ e : ChartEntry, chartEntryFindBySql eng db q = [e] ∧
      e.Count = (db.plays.length : Int) := by
  obtain ⟨ts, hnd, hmem, heq⟩ := chart_eq_tracks_with_counts eng db q (by rw [ht]; simp)
  have hcount : playsInWindow db q t.id = db.plays.length := by
    unfold playsInWindow
    rw [List.filter_eq_self.mpr]
    intro p hpm
    simp [hp p hpm]
  have hnonempty : chartEntryFindBySql eng db q ≠ [] := by
    rw [Ne, chart_eq_nil_iff eng db q hl]
    obtain ⟨p, ps, hps⟩ := List.exists_cons_of_ne_nil hne
    have hpm : p ∈ db.plays := by rw [hps]; simp
    have : (p, t) ∈ joinedRows db q :=
      mem_joinedRows.mpr ⟨hpm, (hp p hpm).2, by rw [ht]; simp, (hp p hpm).1⟩
    intro h
    rw [h] at this
    simp at this
  have hts : ts = [t] := by
    have hsubset : ts ⊆ [t] := by
      intro x hx
      have := hmem x hx
      rwa [ht] at this
    have hlen : ts.length ≤ 1 :=
      (List.subperm_of_subset (List.Nodup.of_map _ hnd) hsubset).length_le
    rcases ts with _ | ⟨a, _ | ⟨b, l⟩⟩
    · simp [heq] at hnonempty
    · have := hsubset (List.mem_cons_self _ _)
      simp only [List.mem_singleton] at this
      rw [this]
    · simp at hlen
  subst hts
  refine ⟨_, heq, ?_⟩
  simp [chartEntryOf, chartEntryForRows, hcount]

/-- C3 (play accumulation): on a store kept under its constraints, the year
chart and the year+month chart are lists of distinct track rows of the store,
each rendered with Count equal to the number of play rows inside the window
whose track_id is the id of that track; no track is listed twice.  After
ingesting N >= 1 records with one fingerprint, one year and one month into the
freshly initialised store, each of the two charts of that window is exactly
one entry, with Count N. -/
theorem chart_counts_plays (eng : Engine) (db : Store) (hv : db.Valid) (year month : Int)
    (f : String) (rs : List (TraktorXMLEntryCollection × TraktorXMLEntry)) (hrs : rs ≠ [])
    (hsame : ∀ r ∈ rs, r.2.AudioId = f ∧ r.1.Year = year ∧ r.1.Month = month) :
    (∃ ts : List TrackRow, (ts.map (·.id)).Nodup ∧ (∀ t ∈ ts, t ∈ db.tracks) ∧
      findChartEntriesByYear eng db year =
        ts.map (fun t => chartEntryOf eng t (playsInWindow db (playsByYearStatement year) t.id))) ∧
    (∃ ts : List TrackRow, (ts.map (·.id)).Nodup ∧ (∀ t ∈ ts, t ∈ db.tracks) ∧
      findChartEntriesByMonthAndYear eng db month year = ts.map (fun t =>
        chartEntryOf eng t (playsInWindow db (playsByMonthAndYearStatement month year) t.id))) ∧
    ∃ (db1 : Store) (e1 e2 : ChartEntry), insertEntries eng emptyStore rs = .returned db1 ∧
      findChartEntriesByYear eng db1 year = [e1] ∧ e1.Count = (rs.length : Int) ∧
      findChartEntriesByMonthAndYear eng db1 month year = [e2] ∧
      e2.Count = (rs.length : Int) := by
  refine ⟨chart_eq_tracks_with_counts eng db _ hv.1, chart_eq_tracks_with_counts eng db _ hv.1,
    ?_⟩
  obtain ⟨r, rs0, rfl⟩ := List.exists_cons_of_ne_nil hrs
  obtain ⟨hf, hy, hm⟩ := hsame r (List.mem_cons_self _ _)
  have hfirst := insertEntry_fresh eng emptyStore r.1 r.2 (by simp [emptyStore])
  obtain ⟨db1, hrun, ht1, hlen, hp1⟩ :=
    insertEntries_one_track eng f year month
      (trackRowOf eng (nextRowid (emptyStore.tracks.map (·.id))) r.2)
      (by simp [trackRowOf, hf, sqlEq_refl]) rs0
      { tracks := emptyStore.tracks ++
          [trackRowOf eng (nextRowid (emptyStore.tracks.map (·.id))) r.2]
        plays := emptyStore.plays ++
          [playRowOf emptyStore (nextRowid (emptyStore.tracks.map (·.id))) r.1] }
      (by simp [emptyStore])
      (fun r0 hr0 => hsame r0 (List.mem_cons_of_mem _ hr0))
      (by
        intro p hpm
        simp only [emptyStore, List.nil_append, List.mem_singleton] at hpm
        subst hpm
        exact ⟨rfl, hy, hm⟩)
  have hlen1 : db1.plays.length = (r :: rs0).length := by
    rw [hlen]
    simp [emptyStore]
    omega
  have hne : db1.plays ≠ [] := by
    intro h
    rw [h] at hlen1
    simp at hlen1
  obtain ⟨e1, he1, hc1⟩ := chart_one_track eng db1 (playsByYearStatement year) _
    (by simp [playsByYearStatement]) ht1 hne
    (fun p hpm => ⟨(hp1 p hpm).1, by
      simp [ChartStatement.inWindow, playsByYearStatement, (hp1 p hpm).2.1]⟩)
  obtain ⟨e2, he2, hc2⟩ := chart_one_track eng db1 (playsByMonthAndYearStatement month year) _
    (by simp [playsByMonthAndYearStatement]) ht1 hne
    (fun p hpm => ⟨(hp1 p hpm).1, by
      simp [ChartStatement.inWindow, playsByMonthAndYearStatement, (hp1 p hpm).2.1,
        (hp1 p hpm).2.2]⟩)
  refine ⟨db1, e1, e2, ?_, he1, by rw [hc1, hlen1], he2, by rw [hc2, hlen1]⟩
  simp only [insertEntries, hfirst]
  exact hrun

theorem chart_counts_plays_witness :
    sampleStore.Valid ∧
    ([(march2015, trackA), (march2015late, trackAretagged)] :
      List (TraktorXMLEntryCollection × TraktorXMLEntry)) ≠ [] ∧
    (∀ r ∈ ([(march2015, trackA), (march2015late, trackAretagged)] :
        List (TraktorXMLEntryCollection × TraktorXMLEntry)),
      r.2.AudioId = "a1" ∧ r.1.Year = 2015 ∧ r.1.Month = 3) ∧
    (∃ ts : List TrackRow, (ts.map (·.id)).Nodup ∧ (∀ t ∈ ts, t ∈ sampleStore.tracks) ∧
      findChartEntriesByYear plainEngine sampleStore 2015 = ts.map (fun t =>
        chartEntryOf plainEngine t
          (playsInWindow sampleStore (playsByYearStatement 2015) t.id))) ∧
    ∃ (db1 : Store) (e1 e2 : ChartEntry),
      insertEntries plainEngine emptyStore
        [(march2015, trackA), (march2015late, trackAretagged)] = .returned db1 ∧
      findChartEntriesByYear plainEngine db1 2015 = [e1] ∧ e1.Count = 2 ∧
      findChartEntriesByMonthAndYear plainEngine db1 3 2015 = [e2] ∧ e2.Count = 2 :=
  ⟨by decide, by decide, by decide,
    (chart_counts_plays plainEngine sampleStore (by decide) 2015 3 "a1"
      [(march2015, trackA), (march2015late, trackAretagged)] (by decide) (by decide)).1,
    (chart_counts_plays plainEngine sampleStore (by decide) 2015 3 "a1"
      [(march2015, trackA), (march2015late, trackAretagged)] (by decide) (by decide)).2.2⟩

theorem mem_chartedTracks {db : Store} {q : ChartStatement} {k : Int} :
    k ∈ chartedTracks db q ↔
      k ∈ db.tracks.map (·.id) ∧ ∃ p ∈ db.plays, q.inWindow p = true ∧ p.track_id = k := by
  simp only [chartedTracks, List.mem_filter, List.mem_dedup, List.any_eq_true, Bool.and_eq_true,
    decide_eq_true_eq]

theorem ranking_keys_perm (db : Store) (q : ChartStatement) :
    ((ranking db q).map (·.track_id)).Perm (chartedTracks db q) := by
  have hnd : (chartedTracks db q).Nodup := by
    unfold chartedTracks
    exact (List.nodup_dedup _).filter _
  rw [List.perm_ext_iff_of_nodup (ranking_nodup db q) hnd]
  intro k
  rw [((ranking_perm db q).map _).mem_iff, groupRows_map_track_id, mem_groupKeys,
    mem_chartedTracks]
  constructor
  · intro h
    obtain ⟨r, hr, rfl⟩ := List.mem_map.mp h
    obtain ⟨hp, hw, ht, hid⟩ := mem_joinedRows.mp hr
    exact ⟨List.mem_map.mpr ⟨r.2, ht, hid.symm⟩, r.1, hp, hw, rfl⟩
  · rintro ⟨hk, p, hp, hw, rfl⟩
    obtain ⟨t, ht, hid⟩ := List.mem_map.mp hk
    exact List.mem_map.mpr ⟨(p, t), mem_joinedRows.mpr ⟨hp, hw, ht, hid.symm⟩, rfl⟩

theorem chart_length_charted (eng : Engine) (db : Store) (q : ChartStatement) :
    (chartEntryFindBySql eng db q).length = min q.limit (chartedTracks db q).length := by
  rw [chartEntryFindBySql_eq, List.length_map, List.length_take,
    ← (ranking_keys_perm db q).length_eq, List.length_map]

/-- The limit in the terms of the store: the year chart has at most 15
entries and the year+month chart at most 10; the number of entries is the
smaller of the limit and the number of distinct tracks with plays in the
window; the entries are those of the first rows of the ranking, which lists
each track with plays in the window once and is sorted by the ORDER BY of the
statement on the stored values. -/
theorem chart_limit_stored_order (eng : Engine) (db : Store) (year month : Int) :
    (findChartEntriesByYear eng db year).length ≤ 15 ∧
    (findChartEntriesByMonthAndYear eng db month year).length ≤ 10 ∧
    (findChartEntriesByYear eng db year).length =
      min 15 (chartedTracks db (playsByYearStatement year)).length ∧
    (findChartEntriesByMonthAndYear eng db month year).length =
      min 10 (chartedTracks db (playsByMonthAndYearStatement month year)).length ∧
    findChartEntriesByYear eng db year =
      ((ranking db (playsByYearStatement year)).take 15).map (chartEntryForRows eng) ∧
    findChartEntriesByMonthAndYear eng db month year =
      ((ranking db (playsByMonthAndYearStatement month year)).take 10).map
        (chartEntryForRows eng) ∧
    (∀ q : ChartStatement, (ranking db q).Sorted (fun g1 g2 => rankLe g1 g2 = true) ∧
      ((ranking db q).map (·.track_id)).Perm (chartedTracks db q)) := by
  have hy := chart_length_charted eng db (playsByYearStatement year)
  have hm := chart_length_charted eng db (playsByMonthAndYearStatement month year)
  refine ⟨?_, ?_, hy, hm, rfl, rfl, fun q => ⟨ranking_sorted db q, ranking_keys_perm db q⟩⟩
  · show (chartEntryFindBySql eng db (playsByYearStatement year)).length ≤ 15
    rw [hy]
    exact Nat.min_le_left _ _
  · show (chartEntryFindBySql eng db (playsByMonthAndYearStatement month year)).length ≤ 10
    rw [hm]
    exact Nat.min_le_left _ _

/-- C4 (limit law), evaluated where it fails: eleven tracks whose artist
names are the texts 1 to 11, one play each in March 2015.  All eleven qualify
and the chart has ten entries, so the limit holds; but the entries are the
artists 1 to 10 in numeric order, while the first ten of the count-descending,
artist-ascending ranking are 1, 10, 11, 2, 3, 4, 5, 6, 7, 8: the chart lists
the track of artist 9 and leaves out the track of artist 11. -/
theorem chart_limit_cuts_numeric_artist_order (eng : Engine) :
    ∃ db : Store, insertEntries eng emptyStore elevenNumberedArtists = .returned db ∧
      (chartedTracks db (playsByMonthAndYearStatement 3 2015)).length = 11 ∧
      (findChartEntriesByMonthAndYear eng db 3 2015).map (fun e => (e.Artist, e.Count)) =
        [("1", 1), ("2", 1), ("3", 1), ("4", 1), ("5", 1), ("6", 1), ("7", 1), ("8", 1),
         ("9", 1), ("10", 1)] ∧
      elevenArtistsAscending.take 10 = ["1", "10", "11", "2", "3", "4", "5", "6", "7", "8"] ∧
      (findChartEntriesByMonthAndYear eng db 3 2015).map (fun e => e.Artist) ≠
        elevenArtistsAscending.take 10 := by
  have hchart : findChartEntriesByMonthAndYear eng
      ((insertEntries plainEngine emptyStore elevenNumberedArtists).valueOr emptyStore) 3 2015 =
      findChartEntriesByMonthAndYear plainEngine
        ((insertEntries plainEngine emptyStore elevenNumberedArtists).valueOr emptyStore)
        3 2015 :=
    chartEntryFindBySql_notReal eng _ _ (by decide)
  refine ⟨(insertEntries plainEngine emptyStore elevenNumberedArtists).valueOr emptyStore,
    (insertEntries_engineFree eng _ _ (by decide)).trans (by decide), by decide, ?_, by decide,
    ?_⟩
  · rw [hchart]
    decide
  · rw [hchart]
    decide

/-- Adjacent entries of any chart: the count does not grow, and on equal
counts the stored artist values are in the order SQLite sorts them in (an
INTEGER or REAL before a TEXT, numbers numerically, TEXTs bytewise). -/
theorem chart_sorted_by_count_then_stored_artist (db : Store) (q : ChartStatement) :
    ((ranking db q).take q.limit).Chain' (fun g1 g2 =>
      g2.total < g1.total ∨
        (g1.total = g2.total ∧ SqlVal.le g1.track.artist g2.track.artist = true)) := by
  have h : ((ranking db q).take q.limit).Sorted (fun g1 g2 => rankLe g1 g2 = true) :=
    (ranking_sorted db q).sublist (List.take_sublist _ _)
  refine (List.Pairwise.chain' h).imp ?_
  intro g1 g2 hr
  simpa [rankLe] using hr

/-- When every stored artist is a TEXT (no artist name is a number literal),
adjacent entries of a chart are in the order of the ordering law: the count
falls, or the counts are equal and the artists are in lexicographic order. -/
theorem chart_sorted_by_count_then_artist_of_text (eng : Engine) (db : Store)
    (q : ChartStatement) (htext : ∀ t ∈ db.tracks, ∃ s : String, t.artist = .text s) :
    (chartEntryFindBySql eng db q).Chain' (fun e1 e2 =>
      e1.Count > e2.Count ∨ (e1.Count = e2.Count ∧ e1.Artist ≤ e2.Artist)) := by
  rw [chartEntryFindBySql_eq, List.chain'_map]
  have hmem : ∀ g ∈ (ranking db q).take q.limit, ∃ s : String, g.track.artist = .text s :=
    fun g hg => htext _ (mem_ranking (List.mem_of_mem_take hg)).2.1
  have hchain := chart_sorted_by_count_then_stored_artist db q
  generalize (ranking db q).take q.limit = gs at hmem hchain
  induction gs with
  | nil => exact List.chain'_nil
  | cons g1 gs ih =>
    cases gs with
    | nil => exact List.chain'_singleton _
    | cons g2 gs =>
      rw [List.chain'_cons] at hchain ⊢
      refine ⟨?_, ih (fun g hg => hmem g (List.mem_cons_of_mem _ hg)) hchain.2⟩
      obtain ⟨s1, hs1⟩ := hmem g1 (List.mem_cons_self _ _)
      obtain ⟨s2, hs2⟩ := hmem g2 (List.mem_cons_of_mem _ (List.mem_cons_self _ _))
      rcases hchain.1 with h | ⟨h, hle⟩
      · left
        simp only [chartEntryForRows, gt_iff_lt, Nat.cast_lt]
        exact h
      · right
        refine ⟨by simp [chartEntryForRows, h], ?_⟩
        rw [hs1, hs2] at hle
        simp only [chartEntryForRows, hs1, hs2, SqlVal.scanString]
        exact (stringLe_iff s1 s2).mp hle

/-- The end-to-end scenario of the spec: track A (fingerprint a1, artist Zed)
and track B (fingerprint b1, artist Abel), each ingested three times in March
2015; the March 2015 chart is the Abel track and then the Zed track, both with
count 3. -/
theorem chart_scenario_abel_before_zed (eng : Engine) :
    ∃ db : Store,
      insertEntries eng emptyStore
        [(march2015, trackA), (march2015, trackB), (march2015late, trackA),
         (march2015, trackB), (march2015late, trackB), (march2015, trackA)] = .returned db ∧
      findChartEntriesByMonthAndYear eng db 3 2015 =
        [{ Artist := "Abel", Title := "Low Tide", Genre := "House", Bpm := 122, Key := "5d",
           Length := 415, Count := 3 },
         { Artist := "Zed", Title := "Night Drive", Genre := "Techno", Bpm := 128, Key := "8m",
           Length := 372, Count := 3 }] := by
  refine ⟨(insertEntries plainEngine emptyStore
      [(march2015, trackA), (march2015, trackB), (march2015late, trackA),
       (march2015, trackB), (march2015late, trackB), (march2015, trackA)]).valueOr emptyStore,
    (insertEntries_engineFree eng _ _ (by decide)).trans (by decide), ?_⟩
  exact (chartEntryFindBySql_notReal eng _ _ (by decide)).trans (by decide)

/-- C2 (ordering law), evaluated where it fails: two tracks whose artist
names are the texts 311 and 1349, one play each in March 2015, ingested in
either order.  The column artist is declared STRING, so SQLite stores the
INTEGERs 311 and 1349 and sorts them numerically: both charts list the artist
311 before the artist 1349 on equal counts, while as strings 311 is not below
or equal to 1349, so the two adjacent entries break the ordering law. -/
theorem chart_orders_numeric_artists_numerically (eng : Engine) :
    ∃ db db2 : Store, ∃ e1 e2 : ChartEntry,
      insertEntries eng emptyStore [(march2015, trackBy311), (march2015late, trackBy1349)]
        = .returned db ∧
      insertEntries eng emptyStore [(march2015, trackBy1349), (march2015late, trackBy311)]
        = .returned db2 ∧
      findChartEntriesByMonthAndYear eng db 3 2015 = [e1, e2] ∧
      findChartEntriesByYear eng db 2015 = [e1, e2] ∧
      findChartEntriesByMonthAndYear eng db2 3 2015 = [e1, e2] ∧
      findChartEntriesByYear eng db2 2015 = [e1, e2] ∧
      e1.Artist = "311" ∧ e2.Artist = "1349" ∧ e1.Count = 1 ∧ e2.Count = 1 ∧
      ¬ (e1.Count > e2.Count ∨ (e1.Count = e2.Count ∧ e1.Artist ≤ e2.Artist)) := by
  refine ⟨(insertEntries plainEngine emptyStore
      [(march2015, trackBy311), (march2015late, trackBy1349)]).valueOr emptyStore,
    (insertEntries plainEngine emptyStore
      [(march2015, trackBy1349), (march2015late, trackBy311)]).valueOr emptyStore,
    { Artist := "311", Title := "Down", Genre := "Rock", Bpm := 100, Key := "1m",
      Length := 173, Count := 1 },
    { Artist := "1349", Title := "Riders", Genre := "Metal", Bpm := 180, Key := "2m",
      Length := 271, Count := 1 },
    (insertEntries_engineFree eng _ _ (by decide)).trans (by decide),
    (insertEntries_engineFree eng _ _ (by decide)).trans (by decide),
    (chartEntryFindBySql_notReal eng _ _ (by decide)).trans (by decide),
    (chartEntryFindBySql_notReal eng _ _ (by decide)).trans (by decide),
    (chartEntryFindBySql_notReal eng _ _ (by decide)).trans (by decide),
    (chartEntryFindBySql_notReal eng _ _ (by decide)).trans (by decide),
    rfl, rfl, rfl, rfl, ?_⟩
  rw [← stringLe_iff]
  decide

/-! ## Claims on the report -/

theorem foldl_monthStep (eng : Engine) (db : Store) (year : Int) :
    ∀ (months : List Int) (yd : TraktorDataByYear),
      months.foldl (monthStep eng db year) yd =
        { yd with ByMonth := yd.ByMonth ++ months.filterMap (fun month =>
            if findChartEntriesByMonthAndYear eng db month year = [] then none
            else some { Year := year, Month := month,
                        Charts := findChartEntriesByMonthAndYear eng db month year }) }
  | [], yd => by simp
  | m :: ms, yd => by
    rw [List.foldl_cons, foldl_monthStep eng db year ms]
    by_cases h : findChartEntriesByMonthAndYear eng db m year = []
    · simp [monthStep, h]
    · have hpos : 0 < (findChartEntriesByMonthAndYear eng db m year).length :=
        List.length_pos.mpr h
      simp [monthStep, h, hpos]

theorem foldl_yearStep (eng : Engine) (db : Store) :
    ∀ (years : List Int) (td : TraktorData),
      years.foldl (yearStep eng db) td =
        { td with ByYear := td.ByYear ++ years.filterMap (fun year =>
            if findChartEntriesByYear eng db year = [] then none
            else some { Year := year, Charts := findChartEntriesByYear eng db year,
                        ByMonth := monthSections eng db year }) }
  | [], td => by simp
  | y :: ys, td => by
    rw [List.foldl_cons, foldl_yearStep eng db ys]
    by_cases h : findChartEntriesByYear eng db y = []
    · simp [yearStep, h]
    · have hpos : 0 < (findChartEntriesByYear eng db y).length := List.length_pos.mpr h
      simp [yearStep, h, hpos, foldl_monthStep, monthSections]

/-- On a store whose two tables exist getTraktorData returns: the totals are
the row counts, and the sections are the kept year sections. -/
theorem getTraktorData_returns (eng : Engine) (db : Store) :
    getTraktorData eng db = .returned
      { Plays := (db.plays.length : Int), Tracks := (db.tracks.length : Int),
        ByYear := yearSections eng db } := by
  have h1 : countForTable eng db "plays" = .returned (db.plays.length : Int) := rfl
  have h2 : countForTable eng db "tracks" = .returned (db.tracks.length : Int) := rfl
  simp only [getTraktorData, h1, h2, foldl_yearStep, yearSections, List.nil_append]

theorem mem_monthSections {eng : Engine} {db : Store} {year : Int} {ms : TraktorByYearAndMonth}
    (h : ms ∈ monthSections eng db year) :
    ms.Month ∈ reportMonths ∧ ms.Year = year ∧
      ms.Charts = findChartEntriesByMonthAndYear eng db ms.Month year ∧ ms.Charts ≠ [] := by
  obtain ⟨month, hm, hs⟩ := List.mem_filterMap.mp h
  by_cases hc : findChartEntriesByMonthAndYear eng db month year = []
  · simp [hc] at hs
  · simp only [hc, if_false, Option.some.injEq] at hs
    subst hs
    exact ⟨hm, rfl, rfl, hc⟩

theorem mem_yearSections {eng : Engine} {db : Store} {ys : TraktorDataByYear} (h : ys ∈ yearSections eng db) :
    ys.Year ∈ reportYears ∧ ys.Charts = findChartEntriesByYear eng db ys.Year ∧ ys.Charts ≠ [] ∧
      ys.ByMonth = monthSections eng db ys.Year := by
  obtain ⟨year, hy, hs⟩ := List.mem_filterMap.mp h
  by_cases hc : findChartEntriesByYear eng db year = []
  · simp [hc] at hs
  · simp only [hc, if_false, Option.some.injEq] at hs
    subst hs
    exact ⟨hy, rfl, hc, rfl⟩

theorem joinedRows_eq_nil_of_no_play (db : Store) (q : ChartStatement)
    (h : ∀ p ∈ db.plays, q.inWindow p = false) : joinedRows db q = [] := by
  rw [List.eq_nil_iff_forall_not_mem]
  intro r hr
  obtain ⟨hp, hw, -, -⟩ := mem_joinedRows.mp hr
  rw [h r.1 hp] at hw
  exact Bool.false_ne_true hw

theorem yearChart_nil_of_no_play (eng : Engine) (db : Store) (year : Int)
    (h : ∀ p ∈ db.plays, p.year ≠ year) : findChartEntriesByYear eng db year = [] := by
  show chartEntryFindBySql eng db (playsByYearStatement year) = []
  rw [chart_eq_nil_iff eng db _ (by simp [playsByYearStatement])]
  apply joinedRows_eq_nil_of_no_play
  intro p hp
  simp [ChartStatement.inWindow, playsByYearStatement, h p hp]

theorem monthChart_nil_of_no_play (eng : Engine) (db : Store) (month year : Int)
    (h : ∀ p ∈ db.plays, ¬ (p.year = year ∧ p.month = month)) :
    findChartEntriesByMonthAndYear eng db month year = [] := by
  show chartEntryFindBySql eng db (playsByMonthAndYearStatement month year) = []
  rw [chart_eq_nil_iff eng db _ (by simp [playsByMonthAndYearStatement])]
  apply joinedRows_eq_nil_of_no_play
  intro p hp
  have := h p hp
  simp only [ChartStatement.inWindow, playsByMonthAndYearStatement, Bool.and_eq_false_iff,
    decide_eq_false_iff_not]
  by_cases hm : p.month = month
  · right; exact fun hy => this ⟨hy, hm⟩
  · left; exact hm

/-- C5 (empty-window law): getTraktorData returns a report in which no year
section and no month section has an empty Charts; a year without plays has no
year section, and in a year section a month without plays in that year has no
month section. -/
theorem report_omits_empty_windows (eng : Engine) (db : Store) :
    ∃ r : TraktorData, getTraktorData eng db = .returned r ∧
      (∀ ys ∈ r.ByYear, ys.Charts ≠ [] ∧ ∀ ms ∈ ys.ByMonth, ms.Charts ≠ []) ∧
      (∀ year : Int, (∀ p ∈ db.plays, p.year ≠ year) → ∀ ys ∈ r.ByYear, ys.Year ≠ year) ∧
      (∀ ys ∈ r.ByYear, ∀ month : Int,
        (∀ p ∈ db.plays, ¬ (p.year = ys.Year ∧ p.month = month)) →
        ∀ ms ∈ ys.ByMonth, ms.Month ≠ month) := by
  refine ⟨_, getTraktorData_returns eng db, ?_, ?_, ?_⟩
  · intro ys hys
    obtain ⟨-, -, hne, hbm⟩ := mem_yearSections hys
    refine ⟨hne, ?_⟩
    intro ms hms
    rw [hbm] at hms
    exact (mem_monthSections hms).2.2.2
  · intro year hno ys hys hyear
    obtain ⟨-, hch, hne, -⟩ := mem_yearSections hys
    rw [hch, hyear] at hne
    exact hne (yearChart_nil_of_no_play eng db year hno)
  · intro ys hys month hno ms hms hmonth
    obtain ⟨-, -, -, hbm⟩ := mem_yearSections hys
    rw [hbm] at hms
    obtain ⟨-, -, hch, hne⟩ := mem_monthSections hms
    rw [hch, hmonth] at hne
    exact hne (monthChart_nil_of_no_play eng db month ys.Year hno)

theorem filterMap_map_sublist {α β : Type} (f : α → Option β) (key : β → α)
    (hkey : ∀ a b, f a = some b → key b = a) :
    ∀ l : List α, ((l.filterMap f).map key).Sublist l
  | [] => List.Sublist.slnil
  | a :: l => by
    rcases hfa : f a with _ | b
    · rw [List.filterMap_cons_none hfa]
      exact (filterMap_map_sublist f key hkey l).cons a
    · rw [List.filterMap_cons_some hfa, List.map_cons, hkey a b hfa]
      exact (filterMap_map_sublist f key hkey l).cons₂ a

theorem yearSections_years_sublist (eng : Engine) (db : Store) :
    ((yearSections eng db).map (·.Year)).Sublist reportYears := by
  apply filterMap_map_sublist
  intro year ys h
  by_cases hc : findChartEntriesByYear eng db year = []
  · simp [hc] at h
  · simp only [hc, if_false, Option.some.injEq] at h
    rw [← h]

theorem monthSections_months_sublist (eng : Engine) (db : Store) (year : Int) :
    ((monthSections eng db year).map (·.Month)).Sublist reportMonths := by
  apply filterMap_map_sublist
  intro month ms h
  by_cases hc : findChartEntriesByMonthAndYear eng db month year = []
  · simp [hc] at h
  · simp only [hc, if_false, Option.some.injEq] at h
    rw [← h]

/-- C6 (report order and range): getTraktorData returns a report whose year
sections have strictly decreasing Year values, each in 2011..2020; in every
year section the Month values of ByMonth are strictly decreasing and each in
1..12, every month section carries the Year of its year section, the Charts of
a year section is findChartEntriesByYear of its Year, and the Charts of a
month section is findChartEntriesByMonthAndYear of its Month and Year, on the
same store. -/
theorem report_order_and_range (eng : Engine) (db : Store) :
    ∃ r : TraktorData, getTraktorData eng db = .returned r ∧
      (r.ByYear.map (·.Year)).Sorted (fun a b => a > b) ∧
      ∀ ys ∈ r.ByYear, 2011 ≤ ys.Year ∧ ys.Year ≤ 2020 ∧
        ys.Charts = findChartEntriesByYear eng db ys.Year ∧
        (ys.ByMonth.map (·.Month)).Sorted (fun a b => a > b) ∧
        ∀ ms ∈ ys.ByMonth, 1 ≤ ms.Month ∧ ms.Month ≤ 12 ∧ ms.Year = ys.Year ∧
          ms.Charts = findChartEntriesByMonthAndYear eng db ms.Month ms.Year := by
  have hyears : reportYears.Sorted (fun a b => a > b) := by decide
  have hmonths : reportMonths.Sorted (fun a b => a > b) := by decide
  have hyr : ∀ y ∈ reportYears, 2011 ≤ y ∧ y ≤ 2020 := by decide
  have hmr : ∀ m ∈ reportMonths, 1 ≤ m ∧ m ≤ 12 := by decide
  refine ⟨_, getTraktorData_returns eng db, hyears.sublist (yearSections_years_sublist eng db), ?_⟩
  intro ys hys
  obtain ⟨hy, hch, -, hbm⟩ := mem_yearSections hys
  refine ⟨(hyr _ hy).1, (hyr _ hy).2, hch, ?_, ?_⟩
  · rw [hbm]
    exact hmonths.sublist (monthSections_months_sublist eng db ys.Year)
  · intro ms hms
    rw [hbm] at hms
    obtain ⟨hm, hmy, hmc, -⟩ := mem_monthSections hms
    exact ⟨(hmr _ hm).1, (hmr _ hm).2, hmy, by rw [hmy]; exact hmc⟩

/-- C9 (count-failure sentinel), evaluated where it fails: when the row-count
query fails, countForTable prints the error and goes on to call Next on the
nil cursor, so it panics; it does not return -1, and getTraktorData, which
calls it first, returns no report.  A table name without a table is such a
failing query.  When the query succeeds the result is the number of rows of
the table. -/
theorem countForTable_failed_query_panics (eng : Engine) (db : Store) (err : String) :
    countForTableOf (.failed err) = .panicked ∧
    countForTableOf (.failed err) ≠ .returned (-1) ∧
    countForTable eng db "albums" = .panicked ∧
    countForTable eng db "plays" = .returned (db.plays.length : Int) ∧
    countForTable eng db "tracks" = .returned (db.tracks.length : Int) := by
  refine ⟨rfl, ?_, rfl, rfl, rfl⟩
  simp [countForTableOf]

/-- Table names are resolved without regard to case. -/
theorem countForTable_ignores_case (eng : Engine) (db : Store) :
    countForTable eng db "TRACKS" = .returned (db.tracks.length : Int) ∧
    countForTable eng db "Plays" = .returned (db.plays.length : Int) :=
  ⟨rfl, rfl⟩

end TraktorCharts
